import Mathlib

/-!
Shallow embedding of the couples bucket-list backend (`src/backend/server.py`).

The Mongo document collections become Lean lists of records; `find_one`,
`update_one` and `delete_one` become first-match list operations; timestamps
are natural numbers; Python truthiness on optional strings is made explicit.
Each FastAPI handler becomes a pure function from the store (plus the request
data and the nondeterministically generated identifiers, passed as arguments)
to `Except ApiError` of the new store and response.
-/

namespace Memory

/-- A document in the `users` collection. `password_hash = none` models the
key being absent (OAuth-provisioned accounts omit it). -/
structure UserR where
  user_id : String
  email : String
  name : String
  password_hash : Option String
  picture : Option String
  friend_code : String
  partner_id : Option String
  created_at : Nat
deriving Repr, DecidableEq

/-- A document in the `user_sessions` collection. -/
structure SessionR where
  user_id : String
  session_token : String
  expires_at : Nat
  created_at : Nat
deriving Repr, DecidableEq

/-- A document in the `bucket_items` collection. -/
structure BucketItemR where
  item_id : String
  title : String
  category : String
  created_by : String
  created_at : Nat
  completed : Bool
  shared_with : List String
deriving Repr, DecidableEq

/-- A document in the `completed_items` collection. -/
structure CompletedItemR where
  completed_id : String
  item_id : String
  title : String
  category : String
  photo_base64 : String
  notes : Option String
  completed_at : Nat
  completed_by : String
deriving Repr, DecidableEq

/-- The whole document store (the four collections the handlers touch). -/
structure DB where
  users : List UserR
  user_sessions : List SessionR
  bucket_items : List BucketItemR
  completed_items : List CompletedItemR
deriving Repr, DecidableEq

def emptyDB : DB := ⟨[], [], [], []⟩

/-- The error kinds the handlers can raise (HTTPException details), plus
`SessionIdRequired` for the 400 in `create_session` and `ServerError` for the
uncaught `AttributeError` when a handler dereferences a missing user document. -/
inductive ApiError where
  | Unauthenticated
  | SessionExpired
  | UserNotFound
  | EmailTaken
  | InvalidCredentials
  | OAuthOnlyAccount
  | AlreadyPaired
  | FriendCodeNotFound
  | SelfPairing
  | TargetAlreadyPaired
  | NoPartner
  | NotFound
  | SessionIdRequired
  | ServerError
deriving Repr, DecidableEq

/-- Python truthiness of an optional string: `None` and `""` are falsy. -/
def optTruthy : Option String → Bool
  | none => false
  | some s => s != ""

/-- Mongo `update_one`: apply `f` to the first element matching `p`. -/
def updateOne (p : α → Bool) (f : α → α) : List α → List α
  | [] => []
  | x :: xs => if p x then f x :: xs else x :: updateOne p f xs

/-- Mongo `delete_one`: remove the first element matching `p`. -/
def deleteOne (p : α → Bool) : List α → List α
  | [] => []
  | x :: xs => if p x then xs else x :: deleteOne p xs

/-- Fuel-driven core of Python `str.replace`: replace each non-overlapping
occurrence of `pat` (scanning left to right) by `repl`.  The fuel only serves
to make the recursion structural; `fuel = length + 1` is always enough because
every step consumes at least one character of the input. -/
def replaceAllFuel (pat repl : List Char) : Nat → List Char → List Char
  | 0, l => l
  | _ + 1, [] => []
  | fuel + 1, c :: cs =>
    if pat ≠ [] ∧ List.isPrefixOf pat (c :: cs) then
      repl ++ replaceAllFuel pat repl fuel (List.drop (pat.length - 1) cs)
    else
      c :: replaceAllFuel pat repl fuel cs

/-- Python `s.replace(pat, repl)` (for nonempty `pat`). -/
def pyReplace (s pat repl : String) : String :=
  ⟨replaceAllFuel pat.data repl.data (s.data.length + 1) s.data⟩

/-- `authorization.replace("Bearer ", "")` from `get_current_user`. -/
def stripBearer (s : String) : String := pyReplace s "Bearer " ""

/-- Python `str.lower` (restricted to the ASCII fragment emails use). -/
def pyLower (s : String) : String := ⟨s.data.map Char.toLower⟩

/-- `get_current_user`: resolve the `Authorization` header to a user.
Python's `if not authorization` also rejects an empty header string. -/
def get_current_user (st : DB) (authorization : Option String) (now : Nat) :
    Except ApiError UserR :=
  match authorization with
  | none => .error .Unauthenticated
  | some auth =>
    if auth = "" then .error .Unauthenticated
    else
      match st.user_sessions.find? (fun s => s.session_token == stripBearer auth) with
      | none => .error .Unauthenticated
      | some session =>
        if session.expires_at < now then .error .SessionExpired
        else
          match st.users.find? (fun u => u.user_id == session.user_id) with
          | none => .error .UserNotFound
          | some u => .ok u

/-- `register`: `hash` is the opaque bcrypt hashing capability; the generated
`user_id`, `friend_code` and `session_token` are passed in as arguments (the
friend-code retry loop's output is the `friend_code` argument). -/
def register (st : DB) (email password name : String) (hash : String → String)
    (user_id friend_code session_token : String) (now : Nat) :
    Except ApiError (DB × String) :=
  match st.users.find? (fun u => u.email == pyLower email) with
  | some _ => .error .EmailTaken
  | none =>
    let user : UserR :=
      { user_id := user_id, email := pyLower email, name := name,
        password_hash := some (hash password), picture := none,
        friend_code := friend_code, partner_id := none, created_at := now }
    let session : SessionR :=
      { user_id := user_id, session_token := session_token,
        expires_at := now + 604800, created_at := now }
    .ok ({ st with
            users := st.users ++ [user],
            user_sessions := st.user_sessions ++ [session] }, session_token)

/-- `login`: `verify` is the opaque bcrypt verification capability. -/
def login (st : DB) (email password : String) (verify : String → String → Bool)
    (session_token : String) (now : Nat) : Except ApiError (DB × String) :=
  match st.users.find? (fun u => u.email == pyLower email) with
  | none => .error .InvalidCredentials
  | some user_doc =>
    match user_doc.password_hash with
    | none => .error .OAuthOnlyAccount
    | some h =>
      if ¬ verify password h then .error .InvalidCredentials
      else
        let session : SessionR :=
          { user_id := user_doc.user_id, session_token := session_token,
            expires_at := now + 604800, created_at := now }
        .ok ({ st with user_sessions := st.user_sessions ++ [session] }, session_token)

/-- What the external identity capability returns for a valid session id. -/
structure ExternalSessionData where
  email : String
  name : String
  picture : Option String
  session_token : String
deriving Repr, DecidableEq

/-- `create_session` (the OAuth exchange): `resp` is the external capability's
answer (`none` models a non-200 response).  A provisioned user gets the
generated `new_user_id` and `new_friend_code`; in every case the session is
stored under the externally supplied `session_token`. -/
def create_session (st : DB) (session_id : Option String)
    (resp : Option ExternalSessionData) (new_user_id new_friend_code : String)
    (now : Nat) : Except ApiError (DB × ExternalSessionData) :=
  if ¬ optTruthy session_id then .error .SessionIdRequired
  else
    match resp with
    | none => .error .Unauthenticated
    | some user_data =>
      let session_token := user_data.session_token
      let stUid : DB × String :=
        match st.users.find? (fun u => u.email == user_data.email) with
        | some existing_user => (st, existing_user.user_id)
        | none =>
          let user : UserR :=
            { user_id := new_user_id, email := user_data.email,
              name := user_data.name, password_hash := none,
              picture := user_data.picture, friend_code := new_friend_code,
              partner_id := none, created_at := now }
          ({ st with users := st.users ++ [user] }, new_user_id)
      let session : SessionR :=
        { user_id := stUid.2, session_token := session_token,
          expires_at := now + 604800, created_at := now }
      .ok ({ stUid.1 with user_sessions := stUid.1.user_sessions ++ [session] },
           user_data)

/-- `logout`: authenticates first (the `Depends(get_current_user)`), then
deletes the session named by the bearer token. -/
def logout (st : DB) (authorization : Option String) (now : Nat) :
    Except ApiError DB :=
  match get_current_user st authorization now with
  | .error e => .error e
  | .ok _ =>
    if optTruthy authorization then
      .ok { st with
              user_sessions :=
                deleteOne (fun s => s.session_token == stripBearer (authorization.getD ""))
                  st.user_sessions }
    else .ok st

/-- `connect_friend`, after authentication: `cu` is the user record the
`get_current_user` dependency loaded. -/
def connect_friend (st : DB) (cu : UserR) (code : String) :
    Except ApiError (DB × UserR) :=
  if optTruthy cu.partner_id then .error .AlreadyPaired
  else
    match st.users.find? (fun u => u.friend_code == code) with
    | none => .error .FriendCodeNotFound
    | some friend =>
      if friend.user_id == cu.user_id then .error .SelfPairing
      else if optTruthy friend.partner_id then .error .TargetAlreadyPaired
      else
        let users1 :=
          updateOne (fun u => u.user_id == cu.user_id)
            (fun u => { u with partner_id := some friend.user_id }) st.users
        let users2 :=
          updateOne (fun u => u.user_id == friend.user_id)
            (fun u => { u with partner_id := some cu.user_id }) users1
        .ok ({ st with users := users2 }, friend)

/-- `GET /bucketlist`: the uncompleted items shared with the user; the
source's `.to_list(1000)` returns at most the first 1000 matches. -/
def get_bucket_list (st : DB) (cu : UserR) : List BucketItemR :=
  List.take 1000
    (st.bucket_items.filter
      (fun it => it.shared_with.contains cu.user_id && !it.completed))

/-- `create_bucket_item`: re-reads the creator's document; a missing document
would crash (`None.get`), modelled as `ServerError`. -/
def create_bucket_item (st : DB) (cu : UserR) (title category : String)
    (new_item_id : String) (now : Nat) : Except ApiError (DB × BucketItemR) :=
  match st.users.find? (fun u => u.user_id == cu.user_id) with
  | none => .error .ServerError
  | some user_doc =>
    match user_doc.partner_id with
    | none => .error .NoPartner
    | some pid =>
      if pid = "" then .error .NoPartner
      else
        let item : BucketItemR :=
          { item_id := new_item_id, title := title, category := category,
            created_by := cu.user_id, created_at := now, completed := false,
            shared_with := [cu.user_id, pid] }
        .ok ({ st with bucket_items := st.bucket_items ++ [item] }, item)

/-- `delete_bucket_item`: `delete_one` on `{item_id, shared_with: uid}`;
404 when nothing was deleted. -/
def delete_bucket_item (st : DB) (cu : UserR) (item_id : String) :
    Except ApiError DB :=
  if st.bucket_items.any
      (fun it => it.item_id == item_id && it.shared_with.contains cu.user_id) then
    .ok { st with
            bucket_items :=
              deleteOne
                (fun it => it.item_id == item_id && it.shared_with.contains cu.user_id)
                st.bucket_items }
  else .error .NotFound

/-- `complete_bucket_item`: `find_one` on the triple condition, then an
`update_one` keyed on `item_id` alone, then the snapshot insert. -/
def complete_bucket_item (st : DB) (cu : UserR) (item_id photo_base64 : String)
    (notes : Option String) (new_completed_id : String) (now : Nat) :
    Except ApiError (DB × CompletedItemR) :=
  match st.bucket_items.find?
      (fun it => it.item_id == item_id && it.shared_with.contains cu.user_id
                 && !it.completed) with
  | none => .error .NotFound
  | some item =>
    let items1 :=
      updateOne (fun it => it.item_id == item_id)
        (fun it => { it with completed := true }) st.bucket_items
    let ci : CompletedItemR :=
      { completed_id := new_completed_id, item_id := item_id,
        title := item.title, category := item.category,
        photo_base64 := photo_base64, notes := notes,
        completed_at := now, completed_by := cu.user_id }
    .ok ({ st with
            bucket_items := items1,
            completed_items := st.completed_items ++ [ci] }, ci)

/-- The descending `completed_at` order of `.sort("completed_at", -1)`. -/
def ciDesc (a b : CompletedItemR) : Prop := b.completed_at ≤ a.completed_at

instance : DecidableRel ciDesc := fun a b => Nat.decLe b.completed_at a.completed_at

instance : IsTotal CompletedItemR ciDesc := ⟨fun a b => Nat.le_total b.completed_at a.completed_at⟩

instance : IsTrans CompletedItemR ciDesc :=
  ⟨fun _ _ _ h1 h2 => Nat.le_trans h2 h1⟩

/-- `get_completed_items`: re-reads the user's document (missing document
crashes, modelled as `ServerError`), returns `[]` without a partner, else the
partner-scoped completed items sorted by `completed_at` descending, capped by
the source's `.to_list(1000)` at the first 1000 records. -/
def get_completed_items (st : DB) (cu : UserR) :
    Except ApiError (List CompletedItemR) :=
  match st.users.find? (fun u => u.user_id == cu.user_id) with
  | none => .error .ServerError
  | some user_doc =>
    match user_doc.partner_id with
    | none => .ok []
    | some pid =>
      if pid = "" then .ok []
      else
        .ok (List.take 1000 (List.insertionSort ciDesc
          (st.completed_items.filter
            (fun c => c.completed_by == cu.user_id || c.completed_by == pid))))

/-- The `connect_friend` endpoint including its authentication dependency. -/
def connect_friend_endpoint (st : DB) (authorization : Option String)
    (code : String) (now : Nat) : Except ApiError (DB × UserR) :=
  match get_current_user st authorization now with
  | .error e => .error e
  | .ok cu => connect_friend st cu code

/-- One request to any state-touching endpoint, with the request payload and
all nondeterministically generated identifiers carried in the constructor. -/
inductive Op where
  | opRegister (email password name : String) (hash : String → String)
      (user_id friend_code session_token : String) (now : Nat)
  | opLogin (email password : String) (verify : String → String → Bool)
      (session_token : String) (now : Nat)
  | opCreateSession (session_id : Option String) (resp : Option ExternalSessionData)
      (new_user_id new_friend_code : String) (now : Nat)
  | opLogout (authorization : Option String) (now : Nat)
  | opConnectFriend (authorization : Option String) (code : String) (now : Nat)
  | opGetBucketList (authorization : Option String) (now : Nat)
  | opCreateItem (authorization : Option String) (title category new_item_id : String)
      (now : Nat)
  | opDeleteItem (authorization : Option String) (item_id : String) (now : Nat)
  | opCompleteItem (authorization : Option String) (item_id photo : String)
      (notes : Option String) (new_completed_id : String) (now : Nat)
  | opGetCompleted (authorization : Option String) (now : Nat)

/-- The state after serving one request: an HTTPException (an `.error`)
leaves the store as the handler left it, and every raise in the source
happens before the handler's first write, so the store is unchanged. -/
def step (st : DB) : Op → DB
  | .opRegister email password name hash uid fc tok now =>
    match register st email password name hash uid fc tok now with
    | .error _ => st
    | .ok (st', _) => st'
  | .opLogin email password verify tok now =>
    match login st email password verify tok now with
    | .error _ => st
    | .ok (st', _) => st'
  | .opCreateSession sid resp uid fc now =>
    match create_session st sid resp uid fc now with
    | .error _ => st
    | .ok (st', _) => st'
  | .opLogout auth now =>
    match logout st auth now with
    | .error _ => st
    | .ok st' => st'
  | .opConnectFriend auth code now =>
    match connect_friend_endpoint st auth code now with
    | .error _ => st
    | .ok (st', _) => st'
  | .opGetBucketList _ _ => st
  | .opCreateItem auth title category iid now =>
    match get_current_user st auth now with
    | .error _ => st
    | .ok cu =>
      match create_bucket_item st cu title category iid now with
      | .error _ => st
      | .ok (st', _) => st'
  | .opDeleteItem auth iid now =>
    match get_current_user st auth now with
    | .error _ => st
    | .ok cu =>
      match delete_bucket_item st cu iid with
      | .error _ => st
      | .ok st' => st'
  | .opCompleteItem auth iid photo notes cid now =>
    match get_current_user st auth now with
    | .error _ => st
    | .ok cu =>
      match complete_bucket_item st cu iid photo notes cid now with
      | .error _ => st
      | .ok (st', _) => st'
  | .opGetCompleted _ _ => st

/-- Serving a sequence of requests. -/
def steps (st : DB) : List Op → DB
  | [] => st
  | op :: ops => steps (step st op) ops

/-- Well-formedness the generated uuid identifiers guarantee: user ids are
distinct and nonempty, bucket item ids are distinct. -/
def WF (st : DB) : Prop :=
  (st.users.map UserR.user_id).Nodup ∧
  "" ∉ st.users.map UserR.user_id ∧
  (st.bucket_items.map BucketItemR.item_id).Nodup

/-- The pairing invariant: a set `partner_id` points at a different,
existing user whose `partner_id` points back. -/
def PairInv (st : DB) : Prop :=
  ∀ u ∈ st.users, ∀ pid, u.partner_id = some pid →
    pid ≠ u.user_id ∧
    ∃ v ∈ st.users, v.user_id = pid ∧ v.partner_id = some u.user_id

def Inv (st : DB) : Prop := WF st ∧ PairInv st

/-- Freshness of the identifiers an operation generates, relative to the
state it runs in (what drawing uuids gives in the real system). -/
def FreshOp (st : DB) : Op → Prop
  | .opRegister _ _ _ _ uid _ _ _ =>
    uid ≠ "" ∧ uid ∉ st.users.map UserR.user_id
  | .opCreateSession _ _ uid _ _ =>
    uid ≠ "" ∧ uid ∉ st.users.map UserR.user_id
  | .opCreateItem _ _ _ iid _ => iid ∉ st.bucket_items.map BucketItemR.item_id
  | _ => True

/-- The operation does not mint a bucket item with id `i` (uuid freshness
relative to an id that has already been used). -/
def AvoidsItem (i : String) : Op → Prop
  | .opCreateItem _ _ _ iid _ => iid ≠ i
  | _ => True

/-- No bucket item with id `i` is still active. -/
def NoActive (st : DB) (i : String) : Prop :=
  ∀ it ∈ st.bucket_items, it.item_id = i → it.completed = true

/-- Modelled from the spec: the claimed token computation of `Authenticate`,
which "strips a `"Bearer "` prefix if present" — written from the spec's
words, to be compared with the source's replace-all (`stripBearer`). -/
def specStripBearer (s : String) : String :=
  if List.isPrefixOf "Bearer ".data s.data then ⟨s.data.drop 7⟩ else s

/-- Modelled from the spec: `Authenticate` as claim C5 words it, identical to
`get_current_user` except for the claimed token computation. -/
def spec_get_current_user (st : DB) (authorization : Option String) (now : Nat) :
    Except ApiError UserR :=
  match authorization with
  | none => .error .Unauthenticated
  | some auth =>
    if auth = "" then .error .Unauthenticated
    else
      match st.user_sessions.find? (fun s => s.session_token == specStripBearer auth) with
      | none => .error .Unauthenticated
      | some session =>
        if session.expires_at < now then .error .SessionExpired
        else
          match st.users.find? (fun u => u.user_id == session.user_id) with
          | none => .error .UserNotFound
          | some u => .ok u

/-! Concrete fixtures used by witnesses and counterexamples. -/

def wA : UserR :=
  { user_id := "ua", email := "a@x.com", name := "A", password_hash := some "h",
    picture := none, friend_code := "AAAAA", partner_id := none, created_at := 0 }

def wB : UserR :=
  { user_id := "ub", email := "b@x.com", name := "B", password_hash := some "h",
    picture := none, friend_code := "BBBBB", partner_id := none, created_at := 0 }

def wSessA : SessionR :=
  { user_id := "ua", session_token := "tokA", expires_at := 100, created_at := 0 }

/-- Two unpaired users, one session for `wA`. -/
def wDB : DB := ⟨[wA, wB], [wSessA], [], []⟩

def wA2 : UserR := { wA with partner_id := some "ub" }

def wB2 : UserR := { wB with partner_id := some "ua" }

def wItem : BucketItemR :=
  { item_id := "it1", title := "Visit Paris", category := "Travel",
    created_by := "ua", created_at := 1, completed := false,
    shared_with := ["ua", "ub"] }

/-- The two users paired, with one active bucket item. -/
def wDBP : DB := ⟨[wA2, wB2], [wSessA], [wItem], []⟩

def wCI1 : CompletedItemR :=
  { completed_id := "c1", item_id := "i1", title := "T1", category := "C1",
    photo_base64 := "P1", notes := none, completed_at := 5, completed_by := "ua" }

def wCI2 : CompletedItemR :=
  { completed_id := "c2", item_id := "i2", title := "T2", category := "C2",
    photo_base64 := "P2", notes := none, completed_at := 9, completed_by := "ub" }

def wCI3 : CompletedItemR :=
  { completed_id := "c3", item_id := "i3", title := "T3", category := "C3",
    photo_base64 := "P3", notes := none, completed_at := 7, completed_by := "zz" }

/-- Paired users with three completed items, one by a stranger. -/
def wDBC : DB := ⟨[wA2, wB2], [wSessA], [], [wCI1, wCI2, wCI3]⟩

def c5sess : SessionR :=
  { user_id := "ua", session_token := "tok", expires_at := 100, created_at := 0 }

/-- One user whose session token is `"tok"`. -/
def c5db : DB := ⟨[wA], [c5sess], [], []⟩

def c6hash : String → String := fun _ => "H"

def c6data : ExternalSessionData :=
  { email := "Foo@x.com", name := "F2", picture := none, session_token := "etok" }

def c6u1 : UserR :=
  { user_id := "u1", email := "foo@x.com", name := "F", password_hash := some "H",
    picture := none, friend_code := "CCCCC", partner_id := none, created_at := 0 }

def c6u2 : UserR :=
  { user_id := "u2", email := "Foo@x.com", name := "F2", password_hash := none,
    picture := none, friend_code := "DDDDD", partner_id := none, created_at := 1 }

def c6st1 : DB := ⟨[c6u1], [⟨"u1", "t1", 604800, 0⟩], [], []⟩

def c6st2 : DB :=
  ⟨[c6u1, c6u2], [⟨"u1", "t1", 604800, 0⟩, ⟨"u2", "etok", 604801, 1⟩], [], []⟩

def c8data : ExternalSessionData :=
  { email := "c@x.com", name := "C", picture := none, session_token := "exttok" }

/-- The account an OAuth exchange links its session to: the user found by
exact email match, or the freshly provisioned one (mirrors `create_session`). -/
def sessionOwner (st : DB) (d : ExternalSessionData) (new_user_id : String) : String :=
  match st.users.find? (fun u => u.email == d.email) with
  | some existing_user => existing_user.user_id
  | none => new_user_id

def c8u : UserR :=
  { user_id := "u9", email := "c@x.com", name := "C", password_hash := none,
    picture := none, friend_code := "EEEEE", partner_id := none, created_at := 0 }

/-- The store after exchanging `c8data` on an empty store. -/
def c8st : DB := ⟨[c8u], [⟨"u9", "exttok", 604800, 0⟩], [], []⟩

/-- Paired users with one already-completed item and its completion record. -/
def wDBdel : DB := ⟨[wA2, wB2], [wSessA], [{ wItem with completed := true }], [wCI1]⟩

/-- `wDBdel` after the completed item is deleted. -/
def wDBdel2 : DB := ⟨[wA2, wB2], [wSessA], [], [wCI1]⟩

/-- Paired users with 1001 identical completion records by `wA2` — one more
than the `.to_list(1000)` cap returns. -/
def c9big : DB := ⟨[wA2, wB2], [wSessA], [], List.replicate 1001 wCI1⟩

/-! ### Helper lemmas about the list-store primitives -/

theorem mem_updateOne {p : α → Bool} {f : α → α} :
    ∀ {l : List α} {y : α}, y ∈ updateOne p f l →
      y ∈ l ∨ ∃ x ∈ l, p x = true ∧ y = f x := by
  intro l
  induction l with
  | nil => intro y h; simp [updateOne] at h
  | cons x xs ih =>
    intro y h
    cases hp : p x with
    | true =>
      rw [updateOne, if_pos hp] at h
      rcases List.mem_cons.mp h with h | h
      · exact .inr ⟨x, List.mem_cons_self x xs, hp, h⟩
      · exact .inl (List.mem_cons_of_mem x h)
    | false =>
      rw [updateOne, if_neg (by simp [hp])] at h
      rcases List.mem_cons.mp h with h | h
      · exact .inl (h ▸ List.mem_cons_self x xs)
      · rcases ih h with h' | ⟨z, hz, hpz, hy⟩
        · exact .inl (List.mem_cons_of_mem x h')
        · exact .inr ⟨z, List.mem_cons_of_mem x hz, hpz, hy⟩

theorem updateOne_map {g : α → β} {p : α → Bool} {f : α → α}
    (hf : ∀ x, g (f x) = g x) : ∀ l : List α, (updateOne p f l).map g = l.map g := by
  intro l
  induction l with
  | nil => rfl
  | cons x xs ih =>
    cases hp : p x with
    | true => rw [updateOne, if_pos hp]; simp [hf, ih]
    | false => rw [updateOne, if_neg (by simp [hp])]; simp [ih]

theorem eq_of_map_nodup {g : α → β} :
    ∀ {l : List α}, (l.map g).Nodup →
      ∀ {x y : α}, x ∈ l → y ∈ l → g x = g y → x = y := by
  intro l
  induction l with
  | nil => intro _ x y hx; cases hx
  | cons a as ih =>
    intro hn x y hx hy hg
    have hna : g a ∉ as.map g := (List.nodup_cons.mp hn).1
    have hns : (as.map g).Nodup := (List.nodup_cons.mp hn).2
    rcases List.mem_cons.mp hx with rfl | hx' <;>
      rcases List.mem_cons.mp hy with rfl | hy'
    · rfl
    · exact absurd (hg ▸ List.mem_map_of_mem g hy') hna
    · exact absurd (hg.symm ▸ List.mem_map_of_mem g hx') hna
    · exact ih hns hx' hy' hg

theorem find?_key_of_mem_nodup {g : α → String} :
    ∀ {l : List α}, (l.map g).Nodup →
      ∀ {u : α} {i : String}, u ∈ l → g u = i →
        l.find? (fun x => g x == i) = some u := by
  intro l
  induction l with
  | nil => intro _ u i hu; cases hu
  | cons a as ih =>
    intro hn u i hu hgi
    rcases List.mem_cons.mp hu with rfl | hu'
    · exact List.find?_cons_of_pos as (by simp [hgi])
    · have hna : g a ∉ as.map g := (List.nodup_cons.mp hn).1
      have hne : ¬ (g a == i) = true := by
        simp only [beq_iff_eq]
        intro hcon
        exact hna (hcon.trans hgi.symm ▸ List.mem_map_of_mem g hu')
      rw [List.find?_cons_of_neg as hne]
      exact ih (List.nodup_cons.mp hn).2 hu' hgi

theorem mem_updateOne_key {g : α → String} {f : α → α} {i : String} :
    ∀ {l : List α}, (l.map g).Nodup → ∀ {u : α}, u ∈ l → g u = i →
      ∀ y : α, y ∈ updateOne (fun x => g x == i) f l ↔
        y = f u ∨ (y ∈ l ∧ g y ≠ i) := by
  intro l
  induction l with
  | nil => intro _ u hu; cases hu
  | cons a as ih =>
    intro hn u hu hgi y
    have hna : g a ∉ as.map g := (List.nodup_cons.mp hn).1
    have hns : (as.map g).Nodup := (List.nodup_cons.mp hn).2
    rcases List.mem_cons.mp hu with rfl | hu'
    · rw [updateOne, if_pos (by simp [hgi])]
      constructor
      · intro hy
        rcases List.mem_cons.mp hy with hy | hy
        · exact .inl hy
        · refine .inr ⟨List.mem_cons_of_mem _ hy, ?_⟩
          intro hcon
          exact hna (hgi ▸ hcon ▸ List.mem_map_of_mem g hy)
      · intro hy
        rcases hy with hy | ⟨hy, hyi⟩
        · exact hy ▸ List.mem_cons_self _ _
        · rcases List.mem_cons.mp hy with rfl | hy'
          · exact absurd hgi hyi
          · exact List.mem_cons_of_mem _ hy'
    · have hai : ¬ (g a == i) = true := by
        simp only [beq_iff_eq]
        intro hcon
        exact hna (hcon.trans hgi.symm ▸ List.mem_map_of_mem g hu')
      rw [updateOne, if_neg hai]
      have hiff := ih hns hu' hgi y
      constructor
      · intro hy
        rcases List.mem_cons.mp hy with rfl | hy'
        · refine .inr ⟨List.mem_cons_self _ _, ?_⟩
          simpa [beq_iff_eq] using hai
        · rcases hiff.mp hy' with h | ⟨h1, h2⟩
          · exact .inl h
          · exact .inr ⟨List.mem_cons_of_mem _ h1, h2⟩
      · intro hy
        rcases hy with hy | ⟨hy, hyi⟩
        · exact List.mem_cons_of_mem _ (hiff.mpr (.inl hy))
        · rcases List.mem_cons.mp hy with rfl | hy'
          · exact List.mem_cons_self _ _
          · exact List.mem_cons_of_mem _ (hiff.mpr (.inr ⟨hy', hyi⟩))

theorem deleteOne_sublist (p : α → Bool) : ∀ l : List α, List.Sublist (deleteOne p l) l := by
  intro l
  induction l with
  | nil => simp [deleteOne]
  | cons x xs ih =>
    cases hp : p x with
    | true =>
      rw [deleteOne, if_pos hp]
      exact List.sublist_cons_self x xs
    | false =>
      rw [deleteOne, if_neg (by simp [hp])]
      exact ih.cons₂ x

theorem find?_deleteOne_none {p : α → Bool} :
    ∀ {l : List α}, (l.filter p).length ≤ 1 → (deleteOne p l).find? p = none := by
  intro l
  induction l with
  | nil => intro _; rfl
  | cons x xs ih =>
    intro h
    cases hp : p x with
    | true =>
      rw [deleteOne, if_pos hp]
      rw [List.filter_cons_of_pos hp] at h
      have hall : ∀ a ∈ xs, p a = false := by simpa using h
      exact List.find?_eq_none.mpr (fun a ha => by simp [hall a ha])
    | false =>
      rw [deleteOne, if_neg (by simp [hp])]
      rw [List.find?_cons_of_neg _ (by simp [hp])]
      rw [List.filter_cons_of_neg (by simp [hp])] at h
      exact ih h

/-! ### Elimination lemmas for the handlers -/

theorem register_ok_elim {st : DB} {email password name : String}
    {hash : String → String} {user_id friend_code session_token : String}
    {now : Nat} {r : DB × String}
    (h : register st email password name hash user_id friend_code session_token now = .ok r) :
    st.users.find? (fun u => u.email == pyLower email) = none ∧
    r.2 = session_token ∧
    ∃ nu : UserR, nu.user_id = user_id ∧ nu.partner_id = none ∧
      nu.email = pyLower email ∧
      r.1.users = st.users ++ [nu] ∧
      r.1.bucket_items = st.bucket_items ∧
      r.1.completed_items = st.completed_items := by
  unfold register at h
  cases hfind : st.users.find? (fun u => u.email == pyLower email) with
  | some u => rw [hfind] at h; cases h
  | none =>
    rw [hfind] at h
    cases h
    exact ⟨rfl, rfl, _, rfl, rfl, rfl, rfl, rfl, rfl⟩

theorem login_ok_elim {st : DB} {email password : String}
    {verify : String → String → Bool} {session_token : String} {now : Nat}
    {r : DB × String}
    (h : login st email password verify session_token now = .ok r) :
    r.1.users = st.users ∧
    r.1.bucket_items = st.bucket_items ∧
    r.1.completed_items = st.completed_items := by
  unfold login at h
  split at h
  · cases h
  · split at h
    · cases h
    · split at h
      · cases h
      · cases h
        exact ⟨rfl, rfl, rfl⟩

theorem create_session_ok_elim {st : DB} {session_id : Option String}
    {resp : Option ExternalSessionData} {new_user_id new_friend_code : String}
    {now : Nat} {r : DB × ExternalSessionData}
    (h : create_session st session_id resp new_user_id new_friend_code now = .ok r) :
    ∃ d, resp = some d ∧ r.2 = d ∧
      optTruthy session_id = true ∧
      r.1.bucket_items = st.bucket_items ∧
      r.1.completed_items = st.completed_items ∧
      ∃ owner_id : String,
        r.1.user_sessions = st.user_sessions ++
          [{ user_id := owner_id, session_token := d.session_token,
             expires_at := now + 604800, created_at := now }] ∧
        ((∃ eu, st.users.find? (fun u => u.email == d.email) = some eu ∧
            owner_id = eu.user_id ∧ r.1.users = st.users) ∨
         (st.users.find? (fun u => u.email == d.email) = none ∧
            owner_id = new_user_id ∧
            ∃ nu : UserR, nu.user_id = new_user_id ∧ nu.partner_id = none ∧
              nu.email = d.email ∧ r.1.users = st.users ++ [nu])) := by
  unfold create_session at h
  by_cases hsid : optTruthy session_id
  · rw [if_neg (by simpa using hsid)] at h
    cases resp with
    | none => cases h
    | some d =>
      dsimp only at h
      refine ⟨d, rfl, ?_⟩
      cases hfind : st.users.find? (fun u => u.email == d.email) with
      | some eu =>
        rw [hfind] at h
        dsimp only at h
        cases h
        exact ⟨rfl, hsid, rfl, rfl, eu.user_id, rfl,
          .inl ⟨eu, rfl, rfl, rfl⟩⟩
      | none =>
        rw [hfind] at h
        dsimp only at h
        cases h
        exact ⟨rfl, hsid, rfl, rfl, new_user_id, rfl,
          .inr ⟨rfl, rfl, _, rfl, rfl, rfl, rfl⟩⟩
  · rw [if_pos (by simpa using hsid)] at h
    cases h

theorem get_current_user_ok_elim {st : DB} {auth : Option String} {now : Nat}
    {cu : UserR} (h : get_current_user st auth now = .ok cu) :
    (∃ a, auth = some a ∧ a ≠ "") ∧
    st.users.find? (fun u => u.user_id == cu.user_id) = some cu := by
  unfold get_current_user at h
  cases auth with
  | none => cases h
  | some a =>
    dsimp only at h
    by_cases ha : a = ""
    · rw [if_pos ha] at h; cases h
    · rw [if_neg ha] at h
      cases hsess : st.user_sessions.find? (fun s => s.session_token == stripBearer a) with
      | none => rw [hsess] at h; cases h
      | some session =>
        rw [hsess] at h
        dsimp only at h
        by_cases hexp : session.expires_at < now
        · rw [if_pos hexp] at h; cases h
        · rw [if_neg hexp] at h
          cases hfind : st.users.find? (fun u => u.user_id == session.user_id) with
          | none => rw [hfind] at h; cases h
          | some u =>
            rw [hfind] at h
            dsimp only at h
            cases h
            have hid : cu.user_id = session.user_id := by
              simpa [beq_iff_eq] using List.find?_some hfind
            refine ⟨⟨a, rfl, ha⟩, ?_⟩
            rw [← hid] at hfind
            exact hfind

theorem logout_ok_elim {st : DB} {auth : Option String} {now : Nat} {st' : DB}
    (h : logout st auth now = .ok st') :
    ∃ a, auth = some a ∧ a ≠ "" ∧
      st'.users = st.users ∧
      st'.bucket_items = st.bucket_items ∧
      st'.completed_items = st.completed_items ∧
      st'.user_sessions =
        deleteOne (fun s => s.session_token == stripBearer a) st.user_sessions := by
  unfold logout at h
  cases hcu : get_current_user st auth now with
  | error e => rw [hcu] at h; cases h
  | ok cu =>
    rw [hcu] at h
    dsimp only at h
    obtain ⟨⟨a, rfl, ha⟩, _⟩ := get_current_user_ok_elim hcu
    rw [if_pos (by simp [optTruthy, ha])] at h
    cases h
    exact ⟨a, rfl, ha, rfl, rfl, rfl, rfl⟩

theorem connect_ok_elim {st : DB} {cu : UserR} {code : String} {r : DB × UserR}
    (h : connect_friend st cu code = .ok r) :
    optTruthy cu.partner_id = false ∧
    st.users.find? (fun u => u.friend_code == code) = some r.2 ∧
    r.2.user_id ≠ cu.user_id ∧
    optTruthy r.2.partner_id = false ∧
    r.1.user_sessions = st.user_sessions ∧
    r.1.bucket_items = st.bucket_items ∧
    r.1.completed_items = st.completed_items ∧
    r.1.users =
      updateOne (fun u => u.user_id == r.2.user_id)
        (fun u => { u with partner_id := some cu.user_id })
        (updateOne (fun u => u.user_id == cu.user_id)
          (fun u => { u with partner_id := some r.2.user_id }) st.users) := by
  unfold connect_friend at h
  by_cases hcp : optTruthy cu.partner_id
  · rw [if_pos hcp] at h; cases h
  · rw [if_neg hcp] at h
    cases hfind : st.users.find? (fun u => u.friend_code == code) with
    | none => rw [hfind] at h; cases h
    | some friend =>
      rw [hfind] at h
      dsimp only at h
      by_cases hself : (friend.user_id == cu.user_id) = true
      · rw [if_pos hself] at h; cases h
      · rw [if_neg hself] at h
        by_cases hfp : optTruthy friend.partner_id
        · rw [if_pos hfp] at h; cases h
        · rw [if_neg hfp] at h
          cases h
          exact ⟨by simpa using hcp, rfl, by simpa [beq_iff_eq] using hself,
            by simpa using hfp, rfl, rfl, rfl, rfl⟩

theorem create_item_ok_elim {st : DB} {cu : UserR} {title category new_item_id : String}
    {now : Nat} {r : DB × BucketItemR}
    (h : create_bucket_item st cu title category new_item_id now = .ok r) :
    ∃ doc pid, st.users.find? (fun u => u.user_id == cu.user_id) = some doc ∧
      doc.partner_id = some pid ∧ pid ≠ "" ∧
      r.2 = { item_id := new_item_id, title := title, category := category,
              created_by := cu.user_id, created_at := now, completed := false,
              shared_with := [cu.user_id, pid] } ∧
      r.1.users = st.users ∧
      r.1.user_sessions = st.user_sessions ∧
      r.1.completed_items = st.completed_items ∧
      r.1.bucket_items = st.bucket_items ++ [r.2] := by
  unfold create_bucket_item at h
  cases hfind : st.users.find? (fun u => u.user_id == cu.user_id) with
  | none => rw [hfind] at h; cases h
  | some doc =>
    rw [hfind] at h
    dsimp only at h
    cases hpid : doc.partner_id with
    | none => rw [hpid] at h; cases h
    | some pid =>
      rw [hpid] at h
      dsimp only at h
      by_cases hemp : pid = ""
      · rw [if_pos hemp] at h; cases h
      · rw [if_neg hemp] at h
        cases h
        exact ⟨doc, pid, rfl, hpid, hemp, rfl, rfl, rfl, rfl, rfl⟩

theorem delete_ok_elim {st : DB} {cu : UserR} {item_id : String} {st' : DB}
    (h : delete_bucket_item st cu item_id = .ok st') :
    st'.users = st.users ∧
    st'.user_sessions = st.user_sessions ∧
    st'.completed_items = st.completed_items ∧
    st'.bucket_items =
      deleteOne (fun it => it.item_id == item_id && it.shared_with.contains cu.user_id)
        st.bucket_items := by
  unfold delete_bucket_item at h
  by_cases hany : st.bucket_items.any
      (fun it => it.item_id == item_id && it.shared_with.contains cu.user_id)
  · rw [if_pos hany] at h
    cases h
    exact ⟨rfl, rfl, rfl, rfl⟩
  · rw [if_neg hany] at h
    cases h

theorem complete_ok_elim {st : DB} {cu : UserR} {item_id photo : String}
    {notes : Option String} {cid : String} {now : Nat} {r : DB × CompletedItemR}
    (h : complete_bucket_item st cu item_id photo notes cid now = .ok r) :
    ∃ item, st.bucket_items.find?
        (fun it => it.item_id == item_id && it.shared_with.contains cu.user_id
                   && !it.completed) = some item ∧
      r.2.item_id = item_id ∧
      r.2.completed_by = cu.user_id ∧
      r.2.title = item.title ∧
      r.1.users = st.users ∧
      r.1.user_sessions = st.user_sessions ∧
      r.1.completed_items = st.completed_items ++ [r.2] ∧
      r.1.bucket_items =
        updateOne (fun it => it.item_id == item_id)
          (fun it => { it with completed := true }) st.bucket_items := by
  unfold complete_bucket_item at h
  cases hfind : st.bucket_items.find?
      (fun it => it.item_id == item_id && it.shared_with.contains cu.user_id
                 && !it.completed) with
  | none => rw [hfind] at h; cases h
  | some item =>
    rw [hfind] at h
    dsimp only at h
    cases h
    exact ⟨item, rfl, rfl, rfl, rfl, rfl, rfl, rfl, rfl⟩

/-! ### Invariant preservation -/

theorem WF_congr {st st' : DB} (hu : st'.users = st.users)
    (hb : st'.bucket_items = st.bucket_items) (h : WF st) : WF st' := by
  unfold WF at *
  rw [hu, hb]
  exact h

theorem pairInv_congr {st st' : DB} (hu : st'.users = st.users)
    (h : PairInv st) : PairInv st' := by
  unfold PairInv at *
  rw [hu]
  exact h

theorem inv_congr {st st' : DB} (hu : st'.users = st.users)
    (hb : st'.bucket_items = st.bucket_items) (h : Inv st) : Inv st' :=
  ⟨WF_congr hu hb h.1, pairInv_congr hu h.2⟩

theorem inv_append_user {st st' : DB} {nu : UserR}
    (hu : st'.users = st.users ++ [nu]) (hb : st'.bucket_items = st.bucket_items)
    (hnp : nu.partner_id = none) (hne : nu.user_id ≠ "")
    (hfresh : nu.user_id ∉ st.users.map UserR.user_id)
    (h : Inv st) : Inv st' := by
  obtain ⟨⟨hnod, hnemp, hitems⟩, hpair⟩ := h
  refine ⟨⟨?_, ?_, ?_⟩, ?_⟩
  · rw [hu, List.map_append]
    refine List.nodup_append.mpr ⟨hnod, by simp, ?_⟩
    intro a ha
    simp only [List.map_cons, List.map_nil, List.mem_singleton]
    intro hcon
    exact hfresh (hcon ▸ ha)
  · rw [hu, List.map_append]
    simp only [List.mem_append, List.map_cons, List.map_nil, List.mem_singleton]
    rintro (hc | hc)
    · exact hnemp hc
    · exact hne hc.symm
  · rw [hb]; exact hitems
  · intro u hu' pid hpid
    rw [hu] at hu'
    rcases List.mem_append.mp hu' with hmem | hmem
    · obtain ⟨hpne, v, hv, hvid, hvp⟩ := hpair u hmem pid hpid
      exact ⟨hpne, v, by rw [hu]; exact List.mem_append_left _ hv, hvid, hvp⟩
    · have : u = nu := by simpa using hmem
      rw [this, hnp] at hpid
      cases hpid

theorem partner_none_of_not_truthy {st : DB} (hinv : Inv st) {u : UserR}
    (hu : u ∈ st.users) (ht : optTruthy u.partner_id = false) :
    u.partner_id = none := by
  cases hp : u.partner_id with
  | none => rfl
  | some s =>
    exfalso
    have hs : s = "" := by simpa [optTruthy, hp] using ht
    obtain ⟨_, v, hv, hvid, _⟩ := hinv.2 u hu s hp
    exact hinv.1.2.1 (by
      have := List.mem_map_of_mem UserR.user_id hv
      rw [hvid, hs] at this
      exact this)

theorem id_ne_empty_of_mem {st : DB} (hinv : Inv st) {u : UserR}
    (hu : u ∈ st.users) : u.user_id ≠ "" := by
  intro hcon
  exact hinv.1.2.1 (hcon ▸ List.mem_map_of_mem UserR.user_id hu)

theorem connect_post {st : DB} {cu : UserR} {code : String} {r : DB × UserR}
    (hwf : WF st) (hcu : cu ∈ st.users)
    (h : connect_friend st cu code = .ok r) :
    cu.user_id ≠ r.2.user_id ∧
    r.1.users.find? (fun u => u.user_id == cu.user_id)
      = some { cu with partner_id := some r.2.user_id } ∧
    r.1.users.find? (fun u => u.user_id == r.2.user_id)
      = some { r.2 with partner_id := some cu.user_id } := by
  obtain ⟨hcp, hfind, hne, hfp, _, _, _, husers⟩ := connect_ok_elim h
  have hfr : r.2 ∈ st.users := List.mem_of_find?_eq_some hfind
  have hnod : (st.users.map UserR.user_id).Nodup := hwf.1
  have hm1 := updateOne_map (g := UserR.user_id)
    (p := fun u => u.user_id == cu.user_id)
    (f := fun u => { u with partner_id := some r.2.user_id }) (fun _ => rfl) st.users
  have hnod1 : ((updateOne (fun u => u.user_id == cu.user_id)
      (fun u => { u with partner_id := some r.2.user_id }) st.users).map UserR.user_id).Nodup := by
    rw [hm1]; exact hnod
  have m1 := mem_updateOne_key (g := UserR.user_id)
    (f := fun u => { u with partner_id := some r.2.user_id }) hnod hcu rfl
  have hcuA1 : ({ cu with partner_id := some r.2.user_id } : UserR) ∈
      updateOne (fun u => u.user_id == cu.user_id)
        (fun u => { u with partner_id := some r.2.user_id }) st.users :=
    (m1 _).mpr (.inl rfl)
  have hfr1 : r.2 ∈ updateOne (fun u => u.user_id == cu.user_id)
      (fun u => { u with partner_id := some r.2.user_id }) st.users :=
    (m1 _).mpr (.inr ⟨hfr, hne⟩)
  have m2 := mem_updateOne_key (g := UserR.user_id)
    (f := fun u => { u with partner_id := some cu.user_id }) hnod1 hfr1 rfl
  have hcuA2 : ({ cu with partner_id := some r.2.user_id } : UserR) ∈
      updateOne (fun u => u.user_id == r.2.user_id)
        (fun u => { u with partner_id := some cu.user_id })
        (updateOne (fun u => u.user_id == cu.user_id)
          (fun u => { u with partner_id := some r.2.user_id }) st.users) :=
    (m2 _).mpr (.inr ⟨hcuA1, fun hcon => hne hcon.symm⟩)
  have hfrB2 : ({ r.2 with partner_id := some cu.user_id } : UserR) ∈
      updateOne (fun u => u.user_id == r.2.user_id)
        (fun u => { u with partner_id := some cu.user_id })
        (updateOne (fun u => u.user_id == cu.user_id)
          (fun u => { u with partner_id := some r.2.user_id }) st.users) :=
    (m2 _).mpr (.inl rfl)
  have hnod2 : (((updateOne (fun u => u.user_id == r.2.user_id)
      (fun u => { u with partner_id := some cu.user_id })
      (updateOne (fun u => u.user_id == cu.user_id)
        (fun u => { u with partner_id := some r.2.user_id }) st.users)).map UserR.user_id)).Nodup := by
    rw [updateOne_map (g := UserR.user_id)
      (p := fun u => u.user_id == r.2.user_id)
      (f := fun u => { u with partner_id := some cu.user_id }) (fun _ => rfl), hm1]
    exact hnod
  refine ⟨fun hcon => hne hcon.symm, ?_, ?_⟩
  · rw [husers]
    exact find?_key_of_mem_nodup hnod2 hcuA2 rfl
  · rw [husers]
    exact find?_key_of_mem_nodup hnod2 hfrB2 rfl

theorem connect_preserves_Inv {st : DB} {cu : UserR} {code : String} {r : DB × UserR}
    (hinv : Inv st) (hcu : cu ∈ st.users)
    (h : connect_friend st cu code = .ok r) : Inv r.1 := by
  obtain ⟨hcp, hfind, hne, hfp, _, hbuck, _, husers⟩ := connect_ok_elim h
  have hfr : r.2 ∈ st.users := List.mem_of_find?_eq_some hfind
  have hnod : (st.users.map UserR.user_id).Nodup := hinv.1.1
  have hcupn : cu.partner_id = none := partner_none_of_not_truthy hinv hcu hcp
  have hfrpn : r.2.partner_id = none := partner_none_of_not_truthy hinv hfr hfp
  have hm1 := updateOne_map (g := UserR.user_id)
    (p := fun u => u.user_id == cu.user_id)
    (f := fun u => { u with partner_id := some r.2.user_id }) (fun _ => rfl) st.users
  have hnod1 : ((updateOne (fun u => u.user_id == cu.user_id)
      (fun u => { u with partner_id := some r.2.user_id }) st.users).map UserR.user_id).Nodup := by
    rw [hm1]; exact hnod
  have m1 := mem_updateOne_key (g := UserR.user_id)
    (f := fun u => { u with partner_id := some r.2.user_id }) hnod hcu rfl
  have hfr1 : r.2 ∈ updateOne (fun u => u.user_id == cu.user_id)
      (fun u => { u with partner_id := some r.2.user_id }) st.users :=
    (m1 _).mpr (.inr ⟨hfr, hne⟩)
  have m2 := mem_updateOne_key (g := UserR.user_id)
    (f := fun u => { u with partner_id := some cu.user_id }) hnod1 hfr1 rfl
  have hmap2 : ((updateOne (fun u => u.user_id == r.2.user_id)
      (fun u => { u with partner_id := some cu.user_id })
      (updateOne (fun u => u.user_id == cu.user_id)
        (fun u => { u with partner_id := some r.2.user_id }) st.users)).map UserR.user_id)
      = st.users.map UserR.user_id := by
    rw [updateOne_map (g := UserR.user_id)
      (p := fun u => u.user_id == r.2.user_id)
      (f := fun u => { u with partner_id := some cu.user_id }) (fun _ => rfl), hm1]
  refine ⟨⟨?_, ?_, ?_⟩, ?_⟩
  · rw [husers, hmap2]; exact hnod
  · rw [husers, hmap2]; exact hinv.1.2.1
  · rw [hbuck]; exact hinv.1.2.2
  · intro w hw pid hpid
    rw [husers] at hw
    rcases (m2 _).mp hw with rfl | ⟨hw1, hwB⟩
    · -- w is the updated friend record
      have hpid2 : some cu.user_id = some pid := hpid
      have hpid' : pid = cu.user_id := (Option.some.inj hpid2).symm
      subst hpid'
      refine ⟨fun hcon => hne hcon.symm, { cu with partner_id := some r.2.user_id }, ?_, rfl, rfl⟩
      rw [husers]
      exact (m2 _).mpr (.inr ⟨(m1 _).mpr (.inl rfl), fun hcon => hne hcon.symm⟩)
    · rcases (m1 _).mp hw1 with rfl | ⟨hw0, hwA⟩
      · -- w is the updated requester record
        have hpid2 : some r.2.user_id = some pid := hpid
        have hpid' : pid = r.2.user_id := (Option.some.inj hpid2).symm
        subst hpid'
        refine ⟨hne, { r.2 with partner_id := some cu.user_id }, ?_, rfl, rfl⟩
        rw [husers]
        exact (m2 _).mpr (.inl rfl)
      · -- w is an untouched third user
        obtain ⟨hpne, v, hv, hvid, hvp⟩ := hinv.2 w hw0 pid hpid
        have hpidA : pid ≠ cu.user_id := by
          intro hcon
          have : v = cu := eq_of_map_nodup hnod hv hcu (hvid.trans hcon)
          rw [this, hcupn] at hvp
          cases hvp
        have hpidB : pid ≠ r.2.user_id := by
          intro hcon
          have : v = r.2 := eq_of_map_nodup hnod hv hfr (hvid.trans hcon)
          rw [this, hfrpn] at hvp
          cases hvp
        refine ⟨hpne, v, ?_, hvid, hvp⟩
        rw [husers]
        exact (m2 _).mpr (.inr ⟨(m1 _).mpr (.inr ⟨hv, fun hcon => hpidA (hvid ▸ hcon)⟩),
          fun hcon => hpidB (hvid ▸ hcon)⟩)

theorem inv_emptyDB : Inv emptyDB := by
  refine ⟨⟨List.nodup_nil, by simp [emptyDB], List.nodup_nil⟩, ?_⟩
  intro u hu
  cases hu

theorem step_preserves_Inv (st : DB) (op : Op) (hinv : Inv st)
    (hf : FreshOp st op) : Inv (step st op) := by
  cases op with
  | opRegister e p n hs uid fc tok now =>
    simp only [step]
    cases hreg : register st e p n hs uid fc tok now with
    | error _ => exact hinv
    | ok r =>
      obtain ⟨st', tok'⟩ := r
      obtain ⟨_, _, nu, hid, hnp, _, hu, hb, _⟩ := register_ok_elim hreg
      obtain ⟨huid_ne, huid_fresh⟩ := hf
      refine inv_append_user hu hb hnp ?_ ?_ hinv
      · rw [hid]; exact huid_ne
      · rw [hid]; exact huid_fresh
  | opLogin e p v tok now =>
    simp only [step]
    cases hl : login st e p v tok now with
    | error _ => exact hinv
    | ok r =>
      obtain ⟨st', tok'⟩ := r
      obtain ⟨hu, hb, _⟩ := login_ok_elim hl
      exact inv_congr hu hb hinv
  | opCreateSession sid resp uid fc now =>
    simp only [step]
    cases hcs : create_session st sid resp uid fc now with
    | error _ => exact hinv
    | ok r =>
      obtain ⟨st', out⟩ := r
      obtain ⟨d, _, _, _, hb, _, owner, _, hcase⟩ := create_session_ok_elim hcs
      obtain ⟨huid_ne, huid_fresh⟩ := hf
      rcases hcase with ⟨eu, _, _, hu⟩ | ⟨_, _, nu, hid, hnp, _, hu⟩
      · exact inv_congr hu hb hinv
      · refine inv_append_user hu hb hnp ?_ ?_ hinv
        · rw [hid]; exact huid_ne
        · rw [hid]; exact huid_fresh
  | opLogout auth now =>
    simp only [step]
    cases hlo : logout st auth now with
    | error _ => exact hinv
    | ok st' =>
      obtain ⟨a, _, _, hu, hb, _, _⟩ := logout_ok_elim hlo
      exact inv_congr hu hb hinv
  | opConnectFriend auth code now =>
    simp only [step]
    cases hep : connect_friend_endpoint st auth code now with
    | error _ => exact hinv
    | ok r =>
      obtain ⟨st', out⟩ := r
      unfold connect_friend_endpoint at hep
      cases hcu : get_current_user st auth now with
      | error e => rw [hcu] at hep; cases hep
      | ok cu =>
        rw [hcu] at hep
        dsimp only at hep
        exact connect_preserves_Inv hinv
          (List.mem_of_find?_eq_some (get_current_user_ok_elim hcu).2) hep
  | opGetBucketList auth now =>
    simp only [step]
    exact hinv
  | opCreateItem auth title category iid now =>
    simp only [step]
    cases hcu : get_current_user st auth now with
    | error _ => exact hinv
    | ok cu =>
      dsimp only
      cases hci : create_bucket_item st cu title category iid now with
      | error _ => exact hinv
      | ok r =>
        obtain ⟨st', item⟩ := r
        dsimp only
        obtain ⟨doc, pid, _, _, _, hitem, hu, _, _, hb⟩ := create_item_ok_elim hci
        dsimp only at hitem hu hb
        refine ⟨⟨?_, ?_, ?_⟩, pairInv_congr hu hinv.2⟩
        · rw [hu]; exact hinv.1.1
        · rw [hu]; exact hinv.1.2.1
        · rw [hb, List.map_append]
          refine List.nodup_append.mpr ⟨hinv.1.2.2, by simp, ?_⟩
          intro a ha
          simp only [List.map_cons, List.map_nil, List.mem_singleton]
          intro hcon
          have hiid : item.item_id = iid := by rw [hitem]
          rw [hiid] at hcon
          exact hf (hcon ▸ ha)
  | opDeleteItem auth iid now =>
    simp only [step]
    cases hcu : get_current_user st auth now with
    | error _ => exact hinv
    | ok cu =>
      dsimp only
      cases hd : delete_bucket_item st cu iid with
      | error _ => exact hinv
      | ok st' =>
        dsimp only
        obtain ⟨hu, _, _, hb⟩ := delete_ok_elim hd
        refine ⟨⟨?_, ?_, ?_⟩, pairInv_congr hu hinv.2⟩
        · rw [hu]; exact hinv.1.1
        · rw [hu]; exact hinv.1.2.1
        · rw [hb]
          exact ((deleteOne_sublist _ _).map BucketItemR.item_id).nodup hinv.1.2.2
  | opCompleteItem auth iid photo notes cid now =>
    simp only [step]
    cases hcu : get_current_user st auth now with
    | error _ => exact hinv
    | ok cu =>
      dsimp only
      cases hc : complete_bucket_item st cu iid photo notes cid now with
      | error _ => exact hinv
      | ok r =>
        obtain ⟨st', ci⟩ := r
        dsimp only
        obtain ⟨item, _, _, _, _, hu, _, _, hb⟩ := complete_ok_elim hc
        dsimp only at hu hb
        refine ⟨⟨?_, ?_, ?_⟩, pairInv_congr hu hinv.2⟩
        · rw [hu]; exact hinv.1.1
        · rw [hu]; exact hinv.1.2.1
        · rw [hb, updateOne_map (g := BucketItemR.item_id)
            (p := fun it => it.item_id == iid)
            (f := fun it => { it with completed := true }) (fun _ => rfl)]
          exact hinv.1.2.2
  | opGetCompleted auth now =>
    simp only [step]
    exact hinv

/-! ### Frame and trace lemmas for bucket items and completed items -/

theorem step_bucket_shape (st : DB) (op : Op) :
    ∀ it' ∈ (step st op).bucket_items,
      it' ∈ st.bucket_items ∨
      (∃ it ∈ st.bucket_items, it' = { it with completed := true }) ∨
      (∃ auth title category iid now,
        op = Op.opCreateItem auth title category iid now ∧ it'.item_id = iid) := by
  intro it' hit'
  cases op with
  | opRegister e p n hs uid fc tok now =>
    simp only [step] at hit'
    cases hreg : register st e p n hs uid fc tok now with
    | error _ => rw [hreg] at hit'; exact .inl hit'
    | ok r =>
      rw [hreg] at hit'
      obtain ⟨st', tok'⟩ := r
      obtain ⟨_, _, _, _, _, _, _, hb, _⟩ := register_ok_elim hreg
      dsimp only at hit' hb
      rw [hb] at hit'
      exact .inl hit'
  | opLogin e p v tok now =>
    simp only [step] at hit'
    cases hl : login st e p v tok now with
    | error _ => rw [hl] at hit'; exact .inl hit'
    | ok r =>
      rw [hl] at hit'
      obtain ⟨st', tok'⟩ := r
      obtain ⟨_, hb, _⟩ := login_ok_elim hl
      dsimp only at hit' hb
      rw [hb] at hit'
      exact .inl hit'
  | opCreateSession sid resp uid fc now =>
    simp only [step] at hit'
    cases hcs : create_session st sid resp uid fc now with
    | error _ => rw [hcs] at hit'; exact .inl hit'
    | ok r =>
      rw [hcs] at hit'
      obtain ⟨st', out⟩ := r
      obtain ⟨d, _, _, _, hb, _⟩ := create_session_ok_elim hcs
      dsimp only at hit' hb
      rw [hb] at hit'
      exact .inl hit'
  | opLogout auth now =>
    simp only [step] at hit'
    cases hlo : logout st auth now with
    | error _ => rw [hlo] at hit'; exact .inl hit'
    | ok st' =>
      rw [hlo] at hit'
      obtain ⟨_, _, _, _, hb, _, _⟩ := logout_ok_elim hlo
      dsimp only at hit'
      rw [hb] at hit'
      exact .inl hit'
  | opConnectFriend auth code now =>
    simp only [step] at hit'
    cases hep : connect_friend_endpoint st auth code now with
    | error _ => rw [hep] at hit'; exact .inl hit'
    | ok r =>
      rw [hep] at hit'
      obtain ⟨st', out⟩ := r
      unfold connect_friend_endpoint at hep
      cases hcu : get_current_user st auth now with
      | error e => rw [hcu] at hep; cases hep
      | ok cu =>
        rw [hcu] at hep
        dsimp only at hep
        obtain ⟨_, _, _, _, _, hb, _, _⟩ := connect_ok_elim hep
        dsimp only at hit' hb
        rw [hb] at hit'
        exact .inl hit'
  | opGetBucketList auth now =>
    simp only [step] at hit'
    exact .inl hit'
  | opCreateItem auth title category iid now =>
    simp only [step] at hit'
    cases hcu : get_current_user st auth now with
    | error _ => rw [hcu] at hit'; exact .inl hit'
    | ok cu =>
      rw [hcu] at hit'
      dsimp only at hit'
      cases hci : create_bucket_item st cu title category iid now with
      | error _ => rw [hci] at hit'; exact .inl hit'
      | ok r =>
        rw [hci] at hit'
        obtain ⟨st', item⟩ := r
        obtain ⟨doc, pid, _, _, _, hitem, _, _, _, hb⟩ := create_item_ok_elim hci
        dsimp only at hit' hitem hb
        rw [hb] at hit'
        rcases List.mem_append.mp hit' with hmem | hmem
        · exact .inl hmem
        · have : it' = item := by simpa using hmem
          refine .inr (.inr ⟨auth, title, category, iid, now, rfl, ?_⟩)
          rw [this, hitem]
  | opDeleteItem auth iid now =>
    simp only [step] at hit'
    cases hcu : get_current_user st auth now with
    | error _ => rw [hcu] at hit'; exact .inl hit'
    | ok cu =>
      rw [hcu] at hit'
      dsimp only at hit'
      cases hd : delete_bucket_item st cu iid with
      | error _ => rw [hd] at hit'; exact .inl hit'
      | ok st' =>
        rw [hd] at hit'
        obtain ⟨_, _, _, hb⟩ := delete_ok_elim hd
        dsimp only at hit'
        rw [hb] at hit'
        exact .inl ((deleteOne_sublist _ _).mem hit')
  | opCompleteItem auth iid photo notes cid now =>
    simp only [step] at hit'
    cases hcu : get_current_user st auth now with
    | error _ => rw [hcu] at hit'; exact .inl hit'
    | ok cu =>
      rw [hcu] at hit'
      dsimp only at hit'
      cases hc : complete_bucket_item st cu iid photo notes cid now with
      | error _ => rw [hc] at hit'; exact .inl hit'
      | ok r =>
        rw [hc] at hit'
        obtain ⟨st', ci⟩ := r
        obtain ⟨item, _, _, _, _, _, _, _, hb⟩ := complete_ok_elim hc
        dsimp only at hit' hb
        rw [hb] at hit'
        rcases mem_updateOne hit' with hmem | ⟨x, hx, _, rfl⟩
        · exact .inl hmem
        · exact .inr (.inl ⟨x, hx, rfl⟩)
  | opGetCompleted auth now =>
    simp only [step] at hit'
    exact .inl hit'

theorem noActive_complete_err {st : DB} {i : String} (h : NoActive st i)
    (cu : UserR) (photo : String) (notes : Option String) (cid : String) (now : Nat) :
    complete_bucket_item st cu i photo notes cid now = .error .NotFound := by
  unfold complete_bucket_item
  have hnone : st.bucket_items.find?
      (fun it => it.item_id == i && it.shared_with.contains cu.user_id
                 && !it.completed) = none := by
    refine List.find?_eq_none.mpr ?_
    intro it hmem hpred
    simp only [Bool.and_eq_true, beq_iff_eq, Bool.not_eq_true'] at hpred
    exact absurd (h it hmem hpred.1.1) (by simp [hpred.2])
  rw [hnone]

theorem complete_success_noActive {st : DB} {cu : UserR}
    {iid photo : String} {notes : Option String} {cid : String} {now : Nat}
    {r : DB × CompletedItemR} (hwf : WF st)
    (h : complete_bucket_item st cu iid photo notes cid now = .ok r) :
    NoActive r.1 iid := by
  obtain ⟨item, hfind, _, _, _, _, _, _, hb⟩ := complete_ok_elim h
  have hmem : item ∈ st.bucket_items := List.mem_of_find?_eq_some hfind
  have hiid : item.item_id = iid := by
    have := List.find?_some hfind
    simp only [Bool.and_eq_true, beq_iff_eq] at this
    exact this.1.1
  intro it' hit' hid
  rw [hb] at hit'
  rcases (mem_updateOne_key (g := BucketItemR.item_id)
      (f := fun it => { it with completed := true }) hwf.2.2 hmem hiid it').mp hit' with
    rfl | ⟨_, hne⟩
  · rfl
  · exact absurd hid hne

theorem step_noActive {st : DB} {i : String} {op : Op}
    (h : NoActive st i) (hav : AvoidsItem i op) :
    NoActive (step st op) i := by
  intro it' hit' hid
  rcases step_bucket_shape st op it' hit' with hmem | ⟨it, hit, rfl⟩ | ⟨a, t, c, iid, n, rfl, hiid⟩
  · exact h it' hmem hid
  · rfl
  · have hne : iid ≠ i := hav
    exact absurd (hiid.symm.trans hid) hne

theorem step_completed_filter {st : DB} {i : String} {op : Op}
    (h : NoActive st i) (hav : AvoidsItem i op) :
    (step st op).completed_items.filter (fun c => c.item_id == i)
      = st.completed_items.filter (fun c => c.item_id == i) := by
  cases op with
  | opRegister e p n hs uid fc tok now =>
    simp only [step]
    cases hreg : register st e p n hs uid fc tok now with
    | error _ => rfl
    | ok r =>
      obtain ⟨st', tok'⟩ := r
      obtain ⟨_, _, _, _, _, _, _, _, hc⟩ := register_ok_elim hreg
      dsimp only at hc ⊢
      rw [hc]
  | opLogin e p v tok now =>
    simp only [step]
    cases hl : login st e p v tok now with
    | error _ => rfl
    | ok r =>
      obtain ⟨st', tok'⟩ := r
      obtain ⟨_, _, hc⟩ := login_ok_elim hl
      dsimp only at hc ⊢
      rw [hc]
  | opCreateSession sid resp uid fc now =>
    simp only [step]
    cases hcs : create_session st sid resp uid fc now with
    | error _ => rfl
    | ok r =>
      obtain ⟨st', out⟩ := r
      obtain ⟨d, _, _, _, _, hc, _⟩ := create_session_ok_elim hcs
      dsimp only at hc ⊢
      rw [hc]
  | opLogout auth now =>
    simp only [step]
    cases hlo : logout st auth now with
    | error _ => rfl
    | ok st' =>
      obtain ⟨_, _, _, _, _, hc, _⟩ := logout_ok_elim hlo
      dsimp only
      rw [hc]
  | opConnectFriend auth code now =>
    simp only [step]
    cases hep : connect_friend_endpoint st auth code now with
    | error _ => rfl
    | ok r =>
      obtain ⟨st', out⟩ := r
      unfold connect_friend_endpoint at hep
      cases hcu : get_current_user st auth now with
      | error e => rw [hcu] at hep; cases hep
      | ok cu =>
        rw [hcu] at hep
        dsimp only at hep
        obtain ⟨_, _, _, _, _, _, hc, _⟩ := connect_ok_elim hep
        dsimp only at hc ⊢
        rw [hc]
  | opGetBucketList auth now => rfl
  | opCreateItem auth title category iid now =>
    simp only [step]
    cases hcu : get_current_user st auth now with
    | error _ => rfl
    | ok cu =>
      dsimp only
      cases hci : create_bucket_item st cu title category iid now with
      | error _ => rfl
      | ok r =>
        obtain ⟨st', item⟩ := r
        obtain ⟨doc, pid, _, _, _, _, _, _, hc, _⟩ := create_item_ok_elim hci
        dsimp only at hc ⊢
        rw [hc]
  | opDeleteItem auth iid now =>
    simp only [step]
    cases hcu : get_current_user st auth now with
    | error _ => rfl
    | ok cu =>
      dsimp only
      cases hd : delete_bucket_item st cu iid with
      | error _ => rfl
      | ok st' =>
        obtain ⟨_, _, hc, _⟩ := delete_ok_elim hd
        dsimp only
        rw [hc]
  | opCompleteItem auth iid photo notes cid now =>
    simp only [step]
    cases hcu : get_current_user st auth now with
    | error _ => rfl
    | ok cu =>
      dsimp only
      cases hc : complete_bucket_item st cu iid photo notes cid now with
      | error _ => rfl
      | ok r =>
        obtain ⟨st', ci⟩ := r
        obtain ⟨item, hfind, hciid, _, _, _, _, hcomp, _⟩ := complete_ok_elim hc
        dsimp only at hciid hcomp ⊢
        have hmem : item ∈ st.bucket_items := List.mem_of_find?_eq_some hfind
        have hpred := List.find?_some hfind
        simp only [Bool.and_eq_true, beq_iff_eq, Bool.not_eq_true'] at hpred
        have hne : iid ≠ i := by
          intro hcon
          have := h item hmem (hpred.1.1.trans hcon)
          rw [this] at hpred
          exact absurd hpred.2 (by simp)
        rw [hcomp, List.filter_append]
        have : ci.item_id = iid := hciid
        simp [this, hne]
  | opGetCompleted auth now => rfl

theorem steps_noActive {i : String} :
    ∀ (ops : List Op) (st : DB), NoActive st i → (∀ op ∈ ops, AvoidsItem i op) →
      NoActive (steps st ops) i ∧
      (steps st ops).completed_items.filter (fun c => c.item_id == i)
        = st.completed_items.filter (fun c => c.item_id == i) := by
  intro ops
  induction ops with
  | nil => exact fun st h _ => ⟨h, rfl⟩
  | cons op rest ih =>
    intro st h hav
    have h1 := step_noActive h (hav op (List.mem_cons_self _ _))
    have h2 := step_completed_filter h (hav op (List.mem_cons_self _ _))
    have := ih (step st op) h1 (fun o ho => hav o (List.mem_cons_of_mem _ ho))
    exact ⟨this.1, this.2.trans h2⟩

theorem step_shared_with_frame {st : DB} {op : Op} {i : String} {sw : List String}
    (hQ : ∀ it ∈ st.bucket_items, it.item_id = i → it.shared_with = sw)
    (hav : AvoidsItem i op) :
    ∀ it' ∈ (step st op).bucket_items, it'.item_id = i → it'.shared_with = sw := by
  intro it' hit' hid
  rcases step_bucket_shape st op it' hit' with hmem | ⟨it, hit, rfl⟩ | ⟨a, t, c, iid, n, rfl, hiid⟩
  · exact hQ it' hmem hid
  · exact hQ it hit hid
  · have hne : iid ≠ i := hav
    exact absurd (hiid.symm.trans hid) hne

theorem steps_shared_with_frame {i : String} {sw : List String} :
    ∀ (ops : List Op) (st : DB),
      (∀ it ∈ st.bucket_items, it.item_id = i → it.shared_with = sw) →
      (∀ op ∈ ops, AvoidsItem i op) →
      ∀ it' ∈ (steps st ops).bucket_items, it'.item_id = i → it'.shared_with = sw := by
  intro ops
  induction ops with
  | nil => exact fun st h _ => h
  | cons op rest ih =>
    intro st h hav
    exact ih (step st op)
      (step_shared_with_frame h (hav op (List.mem_cons_self _ _)))
      (fun o ho => hav o (List.mem_cons_of_mem _ ho))

theorem get_completed_congr {st st' : DB} (hu : st'.users = st.users)
    (hc : st'.completed_items = st.completed_items) (cu : UserR) :
    get_completed_items st' cu = get_completed_items st cu := by
  unfold get_completed_items
  rw [hu, hc]

/-! ### Claims -/

/-- Claim C1: after a successful `connect_friend`, the requester's stored
record points at the friend and the friend's stored record points back
(pairing is symmetric and the two users are distinct), and the mutual-pair
property of `partner_id` (`Inv`) holds in the empty store and is preserved by
every operation (given the uuid-freshness of generated ids). -/
theorem C1_pairing_symmetric :
    (∀ (st : DB) (cu : UserR) (code : String) (r : DB × UserR),
      WF st → cu ∈ st.users →
      connect_friend st cu code = .ok r →
      cu.user_id ≠ r.2.user_id ∧
      r.1.users.find? (fun u => u.user_id == cu.user_id)
        = some { cu with partner_id := some r.2.user_id } ∧
      r.1.users.find? (fun u => u.user_id == r.2.user_id)
        = some { r.2 with partner_id := some cu.user_id }) ∧
    Inv emptyDB ∧
    (∀ (st : DB) (op : Op), Inv st → FreshOp st op → Inv (step st op)) :=
  ⟨fun _ _ _ _ hwf hcu h => connect_post hwf hcu h, inv_emptyDB, step_preserves_Inv⟩

theorem C1_witness :
    wA.user_id ≠ wB.user_id ∧
    (DB.mk [wA2, wB2] [wSessA] [] []).users.find? (fun u => u.user_id == wA.user_id)
      = some { wA with partner_id := some wB.user_id } ∧
    (DB.mk [wA2, wB2] [wSessA] [] []).users.find? (fun u => u.user_id == wB.user_id)
      = some { wB with partner_id := some wA.user_id } :=
  C1_pairing_symmetric.1 wDB wA "BBBBB" (⟨[wA2, wB2], [wSessA], [], []⟩, wB)
    ⟨by decide, by decide, by decide⟩ (by decide) (by rfl)

/-- Claim C2: `connect_friend` checks its failure conditions in exactly the
order `AlreadyPaired`, `FriendCodeNotFound`, `SelfPairing`,
`TargetAlreadyPaired`; these four are its only failure kinds; the two
`partner_id` writes happen only when all four checks pass; and a failing
request leaves the store unchanged.  (`optTruthy` is the source's Python
truthiness test; the second-to-last conjunct records that on invariant
states it coincides with "`partner_id` is set".) -/
theorem C2_connect_check_order :
    ∀ (st : DB) (cu : UserR) (code : String),
      (optTruthy cu.partner_id = true →
        connect_friend st cu code = .error .AlreadyPaired) ∧
      (optTruthy cu.partner_id = false →
        st.users.find? (fun u => u.friend_code == code) = none →
        connect_friend st cu code = .error .FriendCodeNotFound) ∧
      (∀ friend, optTruthy cu.partner_id = false →
        st.users.find? (fun u => u.friend_code == code) = some friend →
        friend.user_id = cu.user_id →
        connect_friend st cu code = .error .SelfPairing) ∧
      (∀ friend, optTruthy cu.partner_id = false →
        st.users.find? (fun u => u.friend_code == code) = some friend →
        friend.user_id ≠ cu.user_id →
        optTruthy friend.partner_id = true →
        connect_friend st cu code = .error .TargetAlreadyPaired) ∧
      (∀ friend, optTruthy cu.partner_id = false →
        st.users.find? (fun u => u.friend_code == code) = some friend →
        friend.user_id ≠ cu.user_id →
        optTruthy friend.partner_id = false →
        connect_friend st cu code =
          .ok ({ st with
                  users :=
                    updateOne (fun u => u.user_id == friend.user_id)
                      (fun u => { u with partner_id := some cu.user_id })
                      (updateOne (fun u => u.user_id == cu.user_id)
                        (fun u => { u with partner_id := some friend.user_id })
                        st.users) }, friend)) ∧
      (∀ e, connect_friend st cu code = .error e →
        e = .AlreadyPaired ∨ e = .FriendCodeNotFound ∨
        e = .SelfPairing ∨ e = .TargetAlreadyPaired) ∧
      (Inv st → cu ∈ st.users →
        (optTruthy cu.partner_id = true ↔ cu.partner_id ≠ none)) ∧
      (∀ auth now e, connect_friend_endpoint st auth code now = .error e →
        step st (Op.opConnectFriend auth code now) = st) := by
  intro st cu code
  refine ⟨?_, ?_, ?_, ?_, ?_, ?_, ?_, ?_⟩
  · intro h1
    unfold connect_friend
    rw [if_pos h1]
  · intro h1 h2
    unfold connect_friend
    rw [if_neg (by simp [h1]), h2]
  · intro friend h1 h2 h3
    unfold connect_friend
    rw [if_neg (by simp [h1]), h2]
    dsimp only
    rw [if_pos (by simp [h3])]
  · intro friend h1 h2 h3 h4
    unfold connect_friend
    rw [if_neg (by simp [h1]), h2]
    dsimp only
    rw [if_neg (by simp [h3]), if_pos h4]
  · intro friend h1 h2 h3 h4
    unfold connect_friend
    rw [if_neg (by simp [h1]), h2]
    dsimp only
    rw [if_neg (by simp [h3]), if_neg (by simp [h4])]
  · intro e h
    unfold connect_friend at h
    by_cases h1 : optTruthy cu.partner_id
    · rw [if_pos h1] at h
      cases h
      exact .inl rfl
    · rw [if_neg h1] at h
      cases h2 : st.users.find? (fun u => u.friend_code == code) with
      | none =>
        rw [h2] at h
        cases h
        exact .inr (.inl rfl)
      | some friend =>
        rw [h2] at h
        dsimp only at h
        by_cases h3 : (friend.user_id == cu.user_id) = true
        · rw [if_pos h3] at h
          cases h
          exact .inr (.inr (.inl rfl))
        · rw [if_neg h3] at h
          by_cases h4 : optTruthy friend.partner_id
          · rw [if_pos h4] at h
            cases h
            exact .inr (.inr (.inr rfl))
          · rw [if_neg h4] at h
            cases h
  · intro hinv hmem
    constructor
    · intro ht hcon
      rw [hcon] at ht
      simp [optTruthy] at ht
    · intro hne
      cases hp : cu.partner_id with
      | none => exact absurd hp hne
      | some s =>
        obtain ⟨_, v, hv, hvid, _⟩ := hinv.2 cu hmem s hp
        have hs : s ≠ "" := by
          intro hcon
          have h0 := List.mem_map_of_mem UserR.user_id hv
          rw [hvid, hcon] at h0
          exact hinv.1.2.1 h0
        simp [optTruthy, hs]
  · intro auth now e h
    simp only [step]
    rw [h]

theorem C2_witness :
    connect_friend wDB wA "ZZZZZ" = .error .FriendCodeNotFound :=
  (C2_connect_check_order wDB wA "ZZZZZ").2.1 (by decide) (by decide)

/-- Claim C3: `complete_bucket_item` fails with `NotFound` exactly when no
bucket item matches the triple condition (same id, requester in
`shared_with`, not yet completed), `NotFound` is its only failure kind, and
after a success the completed item stays completed: any later complete on the
same id (across any sequence of requests whose generated item ids avoid it)
fails with `NotFound`, and the set of completion records for that id never
grows again. -/
theorem C3_complete_once :
    (∀ (st : DB) (cu : UserR) (iid photo : String) (notes : Option String)
        (cid : String) (now : Nat),
      (complete_bucket_item st cu iid photo notes cid now = .error .NotFound ↔
        ∀ it ∈ st.bucket_items,
          ¬(it.item_id = iid ∧ cu.user_id ∈ it.shared_with ∧ it.completed = false)) ∧
      (∀ e, complete_bucket_item st cu iid photo notes cid now = .error e →
        e = .NotFound)) ∧
    (∀ (st : DB) (cu : UserR) (iid photo : String) (notes : Option String)
        (cid : String) (now : Nat) (r : DB × CompletedItemR),
      WF st → complete_bucket_item st cu iid photo notes cid now = .ok r →
      r.1.completed_items = st.completed_items ++ [r.2] ∧ r.2.item_id = iid ∧
      NoActive r.1 iid ∧
      ∀ ops : List Op, (∀ op ∈ ops, AvoidsItem iid op) →
        (∀ (cu' : UserR) (photo' : String) (notes' : Option String)
            (cid' : String) (now' : Nat),
          complete_bucket_item (steps r.1 ops) cu' iid photo' notes' cid' now'
            = .error .NotFound) ∧
        (steps r.1 ops).completed_items.filter (fun c => c.item_id == iid)
          = r.1.completed_items.filter (fun c => c.item_id == iid)) := by
  constructor
  · intro st cu iid photo notes cid now
    constructor
    · unfold complete_bucket_item
      cases hfind : st.bucket_items.find?
          (fun it => it.item_id == iid && it.shared_with.contains cu.user_id
                     && !it.completed) with
      | none =>
        simp only [true_iff, reduceCtorEq]
        intro it hit hcon
        have := List.find?_eq_none.mp hfind it hit
        simp only [Bool.and_eq_true, beq_iff_eq, Bool.not_eq_true'] at this
        exact this ⟨⟨hcon.1, by simpa using hcon.2.1⟩, hcon.2.2⟩
      | some item =>
        have hmem := List.mem_of_find?_eq_some hfind
        have hpred := List.find?_some hfind
        simp only [Bool.and_eq_true, beq_iff_eq, Bool.not_eq_true'] at hpred
        constructor
        · intro hcon
          cases hcon
        · intro hall
          exact absurd ⟨hpred.1.1, by simpa using hpred.1.2, hpred.2⟩ (hall item hmem)
    · intro e h
      unfold complete_bucket_item at h
      cases hfind : st.bucket_items.find?
          (fun it => it.item_id == iid && it.shared_with.contains cu.user_id
                     && !it.completed) with
      | none =>
        rw [hfind] at h
        cases h
        rfl
      | some item =>
        rw [hfind] at h
        dsimp only at h
        cases h
  · intro st cu iid photo notes cid now r hwf h
    obtain ⟨item, hfind, hrid, _, _, _, _, hcomp, hb⟩ := complete_ok_elim h
    have hna := complete_success_noActive hwf h
    refine ⟨hcomp, hrid, hna, ?_⟩
    intro ops hav
    obtain ⟨hna', hfil⟩ := steps_noActive ops r.1 hna hav
    exact ⟨fun cu' p' n' c' t' => noActive_complete_err hna' cu' p' n' c' t', hfil⟩

theorem C3_witness :
    complete_bucket_item wDB wA "nope" "P" none "c" 0 = .error .NotFound :=
  ((C3_complete_once.1 wDB wA "nope" "P" none "c" 0).1.mpr (by decide))

/-- Claim C4: `create_bucket_item` fails with `NoPartner` exactly when the
creator's stored `partner_id` is not (truthily) set; on success the new
item's `shared_with` is exactly the pair of the creator's id and the stored
partner id (two distinct ids on invariant states) and the item is appended;
and the `shared_with` of an existing item is never changed by any later
operation (whose generated item ids avoid the item's id). -/
theorem C4_create_shared_with :
    (∀ (st : DB) (cu : UserR) (title category new_item_id : String) (now : Nat)
        (doc : UserR),
      st.users.find? (fun u => u.user_id == cu.user_id) = some doc →
      ((create_bucket_item st cu title category new_item_id now
          = .error .NoPartner) ↔ optTruthy doc.partner_id = false)) ∧
    (∀ (st : DB) (cu : UserR) (title category new_item_id : String) (now : Nat)
        (doc : UserR) (r : DB × BucketItemR),
      st.users.find? (fun u => u.user_id == cu.user_id) = some doc →
      create_bucket_item st cu title category new_item_id now = .ok r →
      ∃ pid, doc.partner_id = some pid ∧
        r.2.shared_with = [cu.user_id, pid] ∧
        (PairInv st → pid ≠ cu.user_id) ∧
        r.1.bucket_items = st.bucket_items ++ [r.2] ∧
        r.1.users = st.users ∧ r.1.completed_items = st.completed_items) ∧
    (∀ (st : DB) (ops : List Op) (it : BucketItemR),
      WF st → it ∈ st.bucket_items →
      (∀ op ∈ ops, AvoidsItem it.item_id op) →
      ∀ it' ∈ (steps st ops).bucket_items, it'.item_id = it.item_id →
        it'.shared_with = it.shared_with) := by
  refine ⟨?_, ?_, ?_⟩
  · intro st cu t c iid now doc hfind
    unfold create_bucket_item
    rw [hfind]
    dsimp only
    cases hp : doc.partner_id with
    | none => simp [optTruthy]
    | some pid =>
      dsimp only
      by_cases he : pid = ""
      · rw [if_pos he]
        simp [optTruthy, he]
      · rw [if_neg he]
        simp [optTruthy, he]
  · intro st cu t c iid now doc r hfind h
    obtain ⟨doc2, pid, hfind2, hpid, hemp, hitem, hu, _, hc, hb⟩ := create_item_ok_elim h
    have hdoc : doc2 = doc := by
      rw [hfind] at hfind2
      exact (Option.some.inj hfind2).symm
    subst hdoc
    refine ⟨pid, hpid, by rw [hitem], ?_, hb, hu, hc⟩
    intro hpinv
    have hmem : doc2 ∈ st.users := List.mem_of_find?_eq_some hfind
    have hid : doc2.user_id = cu.user_id := by
      simpa [beq_iff_eq] using List.find?_some hfind
    obtain ⟨hne, _⟩ := hpinv doc2 hmem pid hpid
    rw [hid] at hne
    exact hne
  · intro st ops it hwf hit hav
    refine steps_shared_with_frame ops st ?_ hav
    intro it'' hit'' hid
    have : it'' = it := eq_of_map_nodup hwf.2.2 hit'' hit hid
    rw [this]

theorem C4_witness :
    create_bucket_item wDB wA "T" "C" "x" 0 = .error .NoPartner :=
  (C4_create_shared_with.1 wDB wA "T" "C" "x" 0 wA (by rfl)).mpr (by decide)

/-- Claim C10: the delete filter ignores the `completed` flag — an item is
deletable by either member of `shared_with`, completed or not — and a
successful delete leaves `completed_items` (and `users`) untouched, so
`get_completed_items` answers exactly as before the delete. -/
theorem C10_delete_ignores_completed :
    ∀ (st : DB) (cu : UserR) (item_id : String),
      (delete_bucket_item st cu item_id = .error .NotFound ↔
        ∀ it ∈ st.bucket_items,
          ¬(it.item_id = item_id ∧ cu.user_id ∈ it.shared_with)) ∧
      (∀ it ∈ st.bucket_items, it.item_id = item_id →
        cu.user_id ∈ it.shared_with →
        ∃ st', delete_bucket_item st cu item_id = .ok st') ∧
      (∀ st', delete_bucket_item st cu item_id = .ok st' →
        st'.completed_items = st.completed_items ∧
        st'.users = st.users ∧
        (∀ cu', get_completed_items st' cu' = get_completed_items st cu')) := by
  intro st cu item_id
  refine ⟨?_, ?_, ?_⟩
  · unfold delete_bucket_item
    by_cases hany : st.bucket_items.any
        (fun it => it.item_id == item_id && it.shared_with.contains cu.user_id)
    · rw [if_pos hany]
      constructor
      · intro hcon
        cases hcon
      · intro hall
        obtain ⟨x, hx, hpx⟩ := List.any_eq_true.mp hany
        simp only [Bool.and_eq_true, beq_iff_eq] at hpx
        exact absurd ⟨hpx.1, by simpa using hpx.2⟩ (hall x hx)
    · rw [if_neg hany]
      constructor
      · intro _ it hit hcon
        refine hany (List.any_eq_true.mpr ⟨it, hit, ?_⟩)
        simp only [Bool.and_eq_true, beq_iff_eq]
        exact ⟨hcon.1, by simpa using hcon.2⟩
      · intro _
        rfl
  · intro it hit hid hmem
    unfold delete_bucket_item
    rw [if_pos (List.any_eq_true.mpr ⟨it, hit, by
      simp only [Bool.and_eq_true, beq_iff_eq]
      exact ⟨hid, by simpa using hmem⟩⟩)]
    exact ⟨_, rfl⟩
  · intro st' h
    obtain ⟨hu, _, hc, _⟩ := delete_ok_elim h
    exact ⟨hc, hu, fun cu' => get_completed_congr hu hc cu'⟩

theorem C10_witness :
    get_completed_items wDBdel2 wA2 = get_completed_items wDBdel wA2 ∧
    wDBdel2.completed_items = wDBdel.completed_items :=
  ⟨((C10_delete_ignores_completed wDBdel wA2 "it1").2.2 wDBdel2 (by rfl)).2.2 wA2,
   ((C10_delete_ignores_completed wDBdel wA2 "it1").2.2 wDBdel2 (by rfl)).1⟩

/-- Claim C5 (amended): `get_current_user` computes the bearer token by
removing every occurrence of the substring `"Bearer "` from the header (for
ordinary headers this strips the single leading marker), fails with
`Unauthenticated` when the header is absent or empty or no session holds that
token, with `SessionExpired` when the current time is strictly after the
session's `expires_at`, with `UserNotFound` when the session's user record is
missing, returns that user otherwise, and these three are its only error
kinds. -/
theorem C5_authenticate_characterization :
    ∀ (st : DB) (now : Nat),
      get_current_user st none now = .error .Unauthenticated ∧
      get_current_user st (some "") now = .error .Unauthenticated ∧
      (∀ a, a ≠ "" →
        st.user_sessions.find? (fun s => s.session_token == stripBearer a) = none →
        get_current_user st (some a) now = .error .Unauthenticated) ∧
      (∀ a session, a ≠ "" →
        st.user_sessions.find? (fun s => s.session_token == stripBearer a)
          = some session →
        session.expires_at < now →
        get_current_user st (some a) now = .error .SessionExpired) ∧
      (∀ a session, a ≠ "" →
        st.user_sessions.find? (fun s => s.session_token == stripBearer a)
          = some session →
        ¬ session.expires_at < now →
        st.users.find? (fun u => u.user_id == session.user_id) = none →
        get_current_user st (some a) now = .error .UserNotFound) ∧
      (∀ a session u, a ≠ "" →
        st.user_sessions.find? (fun s => s.session_token == stripBearer a)
          = some session →
        ¬ session.expires_at < now →
        st.users.find? (fun u => u.user_id == session.user_id) = some u →
        get_current_user st (some a) now = .ok u) ∧
      (∀ auth e, get_current_user st auth now = .error e →
        e = .Unauthenticated ∨ e = .SessionExpired ∨ e = .UserNotFound) := by
  intro st now
  refine ⟨rfl, ?_, ?_, ?_, ?_, ?_, ?_⟩
  · unfold get_current_user
    dsimp only
    rw [if_pos rfl]
  · intro a ha hfind
    unfold get_current_user
    dsimp only
    rw [if_neg ha, hfind]
  · intro a session ha hfind hexp
    unfold get_current_user
    dsimp only
    rw [if_neg ha, hfind]
    dsimp only
    rw [if_pos hexp]
  · intro a session ha hfind hexp hnone
    unfold get_current_user
    dsimp only
    rw [if_neg ha, hfind]
    dsimp only
    rw [if_neg hexp, hnone]
  · intro a session u ha hfind hexp hsome
    unfold get_current_user
    dsimp only
    rw [if_neg ha, hfind]
    dsimp only
    rw [if_neg hexp, hsome]
  · intro auth e h
    unfold get_current_user at h
    cases auth with
    | none =>
      cases h
      exact .inl rfl
    | some a =>
      dsimp only at h
      by_cases ha : a = ""
      · rw [if_pos ha] at h
        cases h
        exact .inl rfl
      · rw [if_neg ha] at h
        cases hsess : st.user_sessions.find? (fun s => s.session_token == stripBearer a) with
        | none =>
          rw [hsess] at h
          cases h
          exact .inl rfl
        | some session =>
          rw [hsess] at h
          dsimp only at h
          by_cases hexp : session.expires_at < now
          · rw [if_pos hexp] at h
            cases h
            exact .inr (.inl rfl)
          · rw [if_neg hexp] at h
            cases hfind : st.users.find? (fun u => u.user_id == session.user_id) with
            | none =>
              rw [hfind] at h
              cases h
              exact .inr (.inr rfl)
            | some u =>
              rw [hfind] at h
              dsimp only at h
              cases h

theorem C5_witness :
    get_current_user c5db (some "Bearer tok") 7 = .ok wA :=
  (C5_authenticate_characterization c5db 7).2.2.2.2.2.1 "Bearer tok" c5sess wA
    (by decide) (by decide) (by decide) (by decide)

theorem C5_counterexample :
    stripBearer "Bearer Bearer tok" = "tok" ∧
    specStripBearer "Bearer Bearer tok" = "Bearer tok" ∧
    get_current_user c5db (some "Bearer Bearer tok") 0 = .ok wA ∧
    spec_get_current_user c5db (some "Bearer Bearer tok") 0
      = .error .Unauthenticated :=
  ⟨by decide, by decide, by rfl, by rfl⟩

/-- Claim C6 (amended): `register` stores the submitted email lowercased and
fails with `EmailTaken` (its only failure kind) exactly when an existing
record's email equals the lowercased submission; OAuth provisioning in
`create_session` matches the external email by exact string equality and
stores it verbatim, so records with emails equal only up to case can coexist
(see the counterexample). -/
theorem C6_email_handling :
    (∀ (st : DB) (email password name : String) (hash : String → String)
        (uid fc tok : String) (now : Nat),
      (register st email password name hash uid fc tok now = .error .EmailTaken ↔
        ∃ u ∈ st.users, u.email = pyLower email) ∧
      (∀ e, register st email password name hash uid fc tok now = .error e →
        e = .EmailTaken) ∧
      (∀ r, register st email password name hash uid fc tok now = .ok r →
        ∃ nu : UserR, nu.email = pyLower email ∧ r.1.users = st.users ++ [nu])) ∧
    (∀ (st : DB) (sid : Option String) (d : ExternalSessionData) (uid fc : String)
        (now : Nat) (r : DB × ExternalSessionData),
      create_session st sid (some d) uid fc now = .ok r →
      ((∀ u ∈ st.users, u.email ≠ d.email) →
        ∃ nu : UserR, nu.email = d.email ∧ r.1.users = st.users ++ [nu]) ∧
      ((∃ u ∈ st.users, u.email = d.email) → r.1.users = st.users)) := by
  constructor
  · intro st email password name hash uid fc tok now
    refine ⟨?_, ?_, ?_⟩
    · unfold register
      cases hfind : st.users.find? (fun u => u.email == pyLower email) with
      | some u =>
        constructor
        · intro _
          exact ⟨u, List.mem_of_find?_eq_some hfind,
            by simpa [beq_iff_eq] using List.find?_some hfind⟩
        · intro _
          rfl
      | none =>
        dsimp only
        constructor
        · intro hcon
          cases hcon
        · intro ⟨u, hu, hmail⟩
          have := List.find?_eq_none.mp hfind u hu
          simp only [beq_iff_eq] at this
          exact absurd hmail this
    · intro e h
      unfold register at h
      cases hfind : st.users.find? (fun u => u.email == pyLower email) with
      | some u =>
        rw [hfind] at h
        cases h
        rfl
      | none =>
        rw [hfind] at h
        dsimp only at h
        cases h
    · intro r h
      obtain ⟨_, _, nu, _, _, hmail, hu, _, _⟩ := register_ok_elim h
      exact ⟨nu, hmail, hu⟩
  · intro st sid d uid fc now r h
    obtain ⟨d2, hd2, _, _, _, _, owner, _, hcase⟩ := create_session_ok_elim h
    have hdd : d2 = d := (Option.some.inj hd2).symm
    subst hdd
    constructor
    · intro hall
      rcases hcase with ⟨eu, hfeu, _, _⟩ | ⟨_, _, nu, _, _, hmail, hu⟩
      · exact absurd (by simpa [beq_iff_eq] using List.find?_some hfeu)
          (hall eu (List.mem_of_find?_eq_some hfeu))
      · exact ⟨nu, hmail, hu⟩
    · intro ⟨u, hu, hmail⟩
      rcases hcase with ⟨eu, _, _, husers⟩ | ⟨hnone, _, _⟩
      · exact husers
      · exfalso
        have := List.find?_eq_none.mp hnone u hu
        simp only [beq_iff_eq] at this
        exact absurd hmail this

theorem C6_witness :
    register c6st1 "FOO@x.com" "pw2" "G" c6hash "u3" "GGGGG" "t3" 2
      = .error .EmailTaken :=
  (C6_email_handling.1 c6st1 "FOO@x.com" "pw2" "G" c6hash "u3" "GGGGG" "t3" 2).1.mpr
    ⟨c6u1, by decide, by decide⟩

theorem C6_counterexample :
    register emptyDB "foo@x.com" "pw" "F" c6hash "u1" "CCCCC" "t1" 0
      = .ok (c6st1, "t1") ∧
    create_session c6st1 (some "sid") (some c6data) "u2" "DDDDD" 1
      = .ok (c6st2, c6data) ∧
    c6u1 ∈ c6st2.users ∧ c6u2 ∈ c6st2.users ∧ c6u1 ≠ c6u2 ∧
    c6u1.email ≠ c6u2.email ∧ pyLower c6u1.email = pyLower c6u2.email :=
  ⟨by rfl, by rfl, by decide, by decide, by decide, by decide, by decide⟩

/-- Claim C7 (amended): the logout handler authenticates with the very token
it revokes, so calling it with a token held by no session fails with
`Unauthenticated` (rather than succeeding silently); when authentication
passes it deletes the first session record holding the token and changes
nothing else, and — as long as at most one session holds the token —
a repeated logout with the same token fails with `Unauthenticated`. -/
theorem C7_logout_characterization :
    (∀ (st : DB) (now : Nat), logout st none now = .error .Unauthenticated) ∧
    (∀ (st : DB) (a : String) (now : Nat), a ≠ "" →
      st.user_sessions.find? (fun s => s.session_token == stripBearer a) = none →
      logout st (some a) now = .error .Unauthenticated) ∧
    (∀ (st : DB) (a : String) (now : Nat) (u : UserR),
      get_current_user st (some a) now = .ok u →
      logout st (some a) now = .ok { st with
        user_sessions :=
          deleteOne (fun s => s.session_token == stripBearer a)
            st.user_sessions }) ∧
    (∀ (st : DB) (a : String) (now now' : Nat) (u : UserR),
      get_current_user st (some a) now = .ok u →
      (st.user_sessions.filter
        (fun s => s.session_token == stripBearer a)).length ≤ 1 →
      logout { st with
          user_sessions :=
            deleteOne (fun s => s.session_token == stripBearer a)
              st.user_sessions } (some a) now'
        = .error .Unauthenticated) := by
  refine ⟨?_, ?_, ?_, ?_⟩
  · intro st now
    rfl
  · intro st a now ha hfind
    have hgc : get_current_user st (some a) now = .error .Unauthenticated := by
      unfold get_current_user
      dsimp only
      rw [if_neg ha, hfind]
    unfold logout
    rw [hgc]
  · intro st a now u h
    obtain ⟨⟨a2, ha2, hane⟩, _⟩ := get_current_user_ok_elim h
    rw [Option.some.inj ha2.symm] at hane
    unfold logout
    rw [h]
    dsimp only
    rw [if_pos (by simp [optTruthy, hane])]
    rfl
  · intro st a now now' u h hlen
    obtain ⟨⟨a2, ha2, hane⟩, _⟩ := get_current_user_ok_elim h
    rw [Option.some.inj ha2.symm] at hane
    have hgc : get_current_user
        { st with
          user_sessions :=
            deleteOne (fun s => s.session_token == stripBearer a)
              st.user_sessions } (some a) now' = .error .Unauthenticated := by
      unfold get_current_user
      dsimp only
      rw [if_neg hane, find?_deleteOne_none hlen]
    unfold logout
    rw [hgc]

theorem C7_witness :
    logout c5db (some "other") 3 = .error .Unauthenticated :=
  C7_logout_characterization.2.1 c5db "other" 3 (by decide) (by decide)

theorem C7_counterexample :
    logout c5db (some "nosuch") 0 = .error .Unauthenticated := by
  rfl

/-- Claim C8: a successful OAuth exchange stores the session under exactly
the externally returned `session_token` — no new token is minted — the
session is linked to an account present in the resulting store, and that very
token used as the bearer header (before expiry, while no older session holds
the same token) authenticates that account. -/
theorem C8_external_token_reused :
    ∀ (st : DB) (sid : Option String) (d : ExternalSessionData) (uid fc : String)
      (now : Nat) (r : DB × ExternalSessionData),
      create_session st sid (some d) uid fc now = .ok r →
      r.1.user_sessions = st.user_sessions ++
        [{ user_id := sessionOwner st d uid, session_token := d.session_token,
           expires_at := now + 604800, created_at := now }] ∧
      (∃ u ∈ r.1.users, u.user_id = sessionOwner st d uid) ∧
      (d.session_token ≠ "" →
        stripBearer d.session_token = d.session_token →
        (∀ s ∈ st.user_sessions, s.session_token ≠ d.session_token) →
        ∀ t, t ≤ now + 604800 →
          ∃ u, get_current_user r.1 (some d.session_token) t = .ok u ∧
            u.user_id = sessionOwner st d uid) := by
  intro st sid d uid fc now r h
  obtain ⟨d2, hd2, _, _, _, _, owner, hsess, hcase⟩ := create_session_ok_elim h
  have hdd : d2 = d := (Option.some.inj hd2).symm
  subst hdd
  have howner : owner = sessionOwner st d2 uid := by
    unfold sessionOwner
    rcases hcase with ⟨eu, hfeu, howner2, _⟩ | ⟨hnone, howner2, _⟩
    · rw [hfeu]
      exact howner2
    · rw [hnone]
      exact howner2
  rw [howner] at hsess
  have hexists : ∃ u ∈ r.1.users, u.user_id = sessionOwner st d2 uid := by
    rcases hcase with ⟨eu, hfeu, howner2, husers⟩ | ⟨_, howner2, nu, hnuid, _, _, husers⟩
    · exact ⟨eu, by rw [husers]; exact List.mem_of_find?_eq_some hfeu,
        (howner2.symm.trans howner).symm ▸ rfl⟩
    · refine ⟨nu, ?_, hnuid.trans (howner2.symm.trans howner)⟩
      rw [husers]
      exact List.mem_append_right _ (List.mem_cons_self _ _)
  refine ⟨hsess, hexists, ?_⟩
  intro hne hstrip hfresh t ht
  have hfind : r.1.user_sessions.find?
      (fun s => s.session_token == stripBearer d2.session_token)
      = some { user_id := sessionOwner st d2 uid,
               session_token := d2.session_token,
               expires_at := now + 604800, created_at := now } := by
    rw [hsess, List.find?_append]
    have h1 : st.user_sessions.find?
        (fun s => s.session_token == stripBearer d2.session_token) = none := by
      refine List.find?_eq_none.mpr ?_
      intro s hs
      simp only [beq_iff_eq, hstrip]
      exact hfresh s hs
    rw [h1]
    simp [hstrip]
  obtain ⟨v, hv, hvid⟩ := hexists
  cases hfu : r.1.users.find? (fun x => x.user_id == sessionOwner st d2 uid) with
  | none =>
    exact absurd (by simp [hvid] : (fun x => x.user_id == sessionOwner st d2 uid) v = true)
      (List.find?_eq_none.mp hfu v hv)
  | some w =>
    refine ⟨w, ?_, by simpa [beq_iff_eq] using List.find?_some hfu⟩
    unfold get_current_user
    dsimp only
    rw [if_neg hne, hfind]
    dsimp only
    rw [if_neg (by omega)]
    rw [hfu]

theorem C8_witness :
    c8st.user_sessions =
      emptyDB.user_sessions ++
        [{ user_id := sessionOwner emptyDB c8data "u9",
           session_token := c8data.session_token,
           expires_at := 0 + 604800, created_at := 0 }] :=
  (C8_external_token_reused emptyDB (some "sid") c8data "u9" "EEEEE" 0
    (c8st, c8data) (by rfl)).1

/-- Claim C9 (amended): `get_completed_items` answers `[]` whenever the
requesting user's stored record has no (truthy) partner — on invariant states
exactly when `partner_id` is unset — and otherwise returns the first 1000
(the source's `.to_list(1000)` cap) of the completion records whose
`completed_by` is the user or the partner, sorted by `completed_at`
descending; whenever at most 1000 records match, that is all of them. -/
theorem C9_list_completed :
    ∀ (st : DB) (cu : UserR) (doc : UserR),
      st.users.find? (fun u => u.user_id == cu.user_id) = some doc →
      (optTruthy doc.partner_id = false → get_completed_items st cu = .ok []) ∧
      (Inv st → (optTruthy doc.partner_id = false ↔ doc.partner_id = none)) ∧
      (∀ pid, doc.partner_id = some pid → pid ≠ "" →
        get_completed_items st cu =
          .ok (List.take 1000 (List.insertionSort ciDesc
            (st.completed_items.filter
              (fun c => c.completed_by == cu.user_id || c.completed_by == pid)))) ∧
        (List.take 1000 (List.insertionSort ciDesc
          (st.completed_items.filter
            (fun c => c.completed_by == cu.user_id || c.completed_by == pid)))).Sorted
          ciDesc ∧
        ((st.completed_items.filter
            (fun c => c.completed_by == cu.user_id || c.completed_by == pid)).length
              ≤ 1000 →
          get_completed_items st cu =
            .ok (List.insertionSort ciDesc
              (st.completed_items.filter
                (fun c => c.completed_by == cu.user_id || c.completed_by == pid))) ∧
          (List.insertionSort ciDesc
            (st.completed_items.filter
              (fun c => c.completed_by == cu.user_id || c.completed_by == pid))).Perm
            (st.completed_items.filter
              (fun c => c.completed_by == cu.user_id || c.completed_by == pid)) ∧
          (List.insertionSort ciDesc
            (st.completed_items.filter
              (fun c => c.completed_by == cu.user_id || c.completed_by == pid))).Sorted
            ciDesc)) := by
  intro st cu doc hfind
  refine ⟨?_, ?_, ?_⟩
  · intro ht
    unfold get_completed_items
    rw [hfind]
    dsimp only
    cases hp : doc.partner_id with
    | none => rfl
    | some pid =>
      have hpe : pid = "" := by simpa [optTruthy, hp] using ht
      dsimp only
      rw [if_pos hpe]
  · intro hinv
    constructor
    · intro ht
      exact partner_none_of_not_truthy hinv (List.mem_of_find?_eq_some hfind) ht
    · intro hnone
      rw [hnone]
      rfl
  · intro pid hpid hne
    have heq : get_completed_items st cu =
        .ok (List.take 1000 (List.insertionSort ciDesc
          (st.completed_items.filter
            (fun c => c.completed_by == cu.user_id || c.completed_by == pid)))) := by
      unfold get_completed_items
      rw [hfind]
      dsimp only
      rw [hpid]
      dsimp only
      rw [if_neg hne]
    refine ⟨heq, ?_, ?_⟩
    · exact List.Pairwise.sublist (List.take_sublist _ _)
        (List.sorted_insertionSort ciDesc _)
    · intro hlen
      have hslen : (List.insertionSort ciDesc
          (st.completed_items.filter
            (fun c => c.completed_by == cu.user_id || c.completed_by == pid))).length
            ≤ 1000 := by
        rw [(List.perm_insertionSort ciDesc _).length_eq]
        exact hlen
      have htake := List.take_of_length_le hslen
      rw [htake] at heq
      exact ⟨heq, List.perm_insertionSort ciDesc _, List.sorted_insertionSort ciDesc _⟩

theorem C9_witness :
    get_completed_items wDBC wA2 = .ok [wCI2, wCI1] ∧
    get_completed_items wDB wA = .ok [] := by
  constructor
  · have h := (((C9_list_completed wDBC wA2 wA2 (by rfl)).2.2 "ub"
      (by rfl) (by decide)).2.2 (by decide)).1
    rw [h]
    rfl
  · exact (C9_list_completed wDB wA wA (by rfl)).1 (by decide)

set_option maxRecDepth 100000 in
set_option maxHeartbeats 1000000 in
theorem C9_counterexample :
    get_completed_items c9big wA2 = .ok (List.replicate 1000 wCI1) ∧
    c9big.completed_items.filter
      (fun c => c.completed_by == wA2.user_id || c.completed_by == "ub")
      = List.replicate 1001 wCI1 ∧
    ¬ (List.replicate 1000 wCI1).Perm (List.replicate 1001 wCI1) := by
  refine ⟨by rfl, by rfl, ?_⟩
  intro h
  exact absurd h.length_eq (by decide)

end Memory
